import Mathlib

/-!
# JetsonYoloV7-TensorRT: the socket server of `yolov7/main.cpp`

A shallow embedding of `receiveImageFromSocket`, `sendDetectionsToSocket` and
`main` of `src/yolov7/main.cpp`, and theorems about the framing protocol and
the accept loop.

Modelling conventions.

* A connected socket is a record `Socket`: the bytes the peer has put on the
  wire and that no `recv` has consumed yet (`rx`), a script giving the outcome
  of each future `recv` (`rxScript`), the bytes the transport has accepted from
  `send` so far (`tx`) and a script for each future `send` (`txScript`).
  The scripts are the nondeterminism of the transport: every way a byte
  stream can be cut into `recv` results is some script.
* Every system call and collaborator call a function performs is recorded, in
  order, in a trace of `Event`s.
* C++ `int` values are `Int`; the places where a value is reinterpreted from
  bytes (`imageSize`, `size_t size`) use explicit little-endian arithmetic with
  explicit moduli (the Jetson target is little-endian, as is x86-64).
* `int imageSize;` is declared without initialiser: the four bytes of its
  storage before the first `recv` are a parameter (`stack`).
* Both `send` calls pass flags `0` and the program never changes the
  disposition of SIGPIPE: a `send` on a connection the peer has closed or reset
  raises SIGPIPE and the process ends inside the call. That outcome is part of
  the transport (`SendStep.sigpipe`) and is carried up to `main` (`Run.killed`).
-/

namespace Yolov7

/-- One byte on the wire or in memory, a natural number below 256. -/
abbrev Byte := Nat

/-- What the transport does with one `send(fd, ptr, len, 0)`. -/
inductive SendStep where
  /-- It takes at most `k` of the bytes offered; `send` returns the count. -/
  | accept (k : Nat)
  /-- It takes nothing and `send` returns `-1`. -/
  | error
  /-- The peer has closed or reset the connection: SIGPIPE is raised and, the
  signal being at its default disposition, the process ends inside the call. -/
  | sigpipe
deriving DecidableEq, Repr

/-- State of one connected stream socket as the kernel and the peer see it. -/
structure Socket where
  /-- The descriptor number `accept` returned. -/
  fd : Int
  /-- Bytes sent by the peer and not yet consumed by a `recv`. -/
  rx : List Byte
  /-- Outcome of each future `recv`: `k > 0` delivers at most `k` bytes,
  `0` is end-of-stream, a negative entry is an error. -/
  rxScript : List Int
  /-- Bytes the transport has accepted from `send`, in order. -/
  tx : List Byte
  /-- Outcome of each future `send`. -/
  txScript : List SendStep
deriving DecidableEq, Repr

/-- What one `recv` call gives back. -/
structure RecvOut where
  /-- The return value of `recv`. -/
  result : Int
  /-- The bytes stored at the address passed to `recv`. -/
  bytes : List Byte
  /-- The socket afterwards. -/
  sock : Socket
deriving DecidableEq, Repr

/-- Model of `recv(fd, ptr, len, 0)` on a blocking stream socket: returns `-1` on error,
otherwise the number of bytes stored, which is never more than `len` and
never more than what the peer has sent; `0` when the stream is at its end.
Once the script is used up the transport delivers whatever is asked for. -/
def recv (s : Socket) (len : Nat) : RecvOut :=
  match s.rxScript with
  | [] =>
    let n := min len s.rx.length
    ⟨(n : Int), s.rx.take n, { s with rx := s.rx.drop n }⟩
  | k :: ks =>
    if k < 0 then ⟨-1, [], { s with rxScript := ks }⟩
    else
      let n := min (min k.toNat len) s.rx.length
      ⟨(n : Int), s.rx.take n, { s with rx := s.rx.drop n, rxScript := ks }⟩

/-- What one `send` call does. -/
structure SendOut where
  /-- The return value of `send`. When `signal` is set the call does not
  return and no code of the program ever sees this value (it is the `-1` the
  call would give with the signal ignored). -/
  result : Int
  /-- SIGPIPE was raised: the process ends inside the call. -/
  signal : Bool
  /-- The socket afterwards. -/
  sock : Socket
deriving DecidableEq, Repr

/-- Model of `send(fd, ptr, len, 0)` where `bytes` are the `len` bytes at `ptr`: returns
`-1` on error, otherwise the number of bytes the transport took, a leading
part of `bytes`; on a connection the peer has closed or reset it raises
SIGPIPE instead of returning. Once the script is used up the transport takes
everything. -/
def send (s : Socket) (bytes : List Byte) : SendOut :=
  match s.txScript with
  | [] => ⟨(bytes.length : Int), false, { s with tx := s.tx ++ bytes }⟩
  | SendStep.accept k :: ks =>
    let n := min k bytes.length
    ⟨(n : Int), false, { s with tx := s.tx ++ bytes.take n, txScript := ks }⟩
  | SendStep.error :: ks => ⟨-1, false, { s with txScript := ks }⟩
  | SendStep.sigpipe :: ks => ⟨-1, true, { s with txScript := ks }⟩

/-- The value of a 4-byte `int` object whose storage holds `bs`
(little-endian, two's complement). -/
def int32OfBytes (bs : List Byte) : Int :=
  let u : Nat := bs.getD 0 0 % 256 + 256 * (bs.getD 1 0 % 256)
    + 65536 * (bs.getD 2 0 % 256) + 16777216 * (bs.getD 3 0 % 256)
  if u < 2147483648 then (u : Int) else (u : Int) - 4294967296

/-- The object representation of a `size_t` (8 bytes, little-endian) holding
`n` modulo `2^64`. -/
def bytesOfSizeT (n : Nat) : List Byte :=
  (List.range 8).map (fun i => n / 256 ^ i % 256)

/-- The value of a `size_t` object whose storage holds `bs`. -/
def sizeTOfBytes (bs : List Byte) : Nat :=
  ((List.range 8).map (fun i => (bs.getD i 0 % 256) * 256 ^ i)).sum

/-- Storage after `received` has been written at its start: the first
`received.length` bytes are replaced, the others keep their old content. -/
def overlay (received old : List Byte) : List Byte :=
  received ++ old.drop received.length

/-- Memory `buf` after `bytes` has been stored at offset `off`. -/
def writeAt (buf : List Byte) (off : Nat) (bytes : List Byte) : List Byte :=
  buf.take off ++ bytes ++ buf.drop (off + bytes.length)

/-- The messages `main.cpp` prints on `cerr` and `cout`. -/
inductive Msg where
  | usage
  | errorReceivingSize
  | invalidSize (imageSize : Int)
  | receivedSize (imageSize : Int)
  | errorReceivingData
  | receivedData
  | errorCreatingSocket
  | errorBinding
  | errorListening
  | waiting
  | errorAccepting
  | clientConnected
deriving DecidableEq, Repr

/-- Calls into the collaborators whose source is outside `main.cpp`. -/
inductive Call where
  | cudaSetDevice
  | deserialize_engine
  | cudaStreamCreate
  | cuda_preprocess_init
  | prepare_buffer
  | cuda_preprocess
  | infer
  | batch_nms
deriving DecidableEq, Repr

/-- One observable step of the program. -/
inductive Event where
  /-- A line written to `cerr` or `cout`. -/
  | log (m : Msg)
  /-- The call `recv(fd, &imageSize, sizeof(imageSize), 0)` and its result. -/
  | recvSize (fd : Int) (result : Int)
  /-- The construction `vector<uchar> buffer(imageSize)`. -/
  | alloc (n : Int)
  /-- The call `recv(fd, buffer.data() + offset, len, 0)` and its result. -/
  | recvData (fd : Int) (offset len result : Int)
  /-- The call `cv::imdecode(buffer, IMREAD_UNCHANGED)` with the buffer's content. -/
  | imdecode (buffer : List Byte)
  /-- A call `send(fd, ptr, len, 0)` and its result. -/
  | send (fd : Int) (len : Nat) (result : Int)
  /-- A call `send(fd, ptr, len, 0)` that raised SIGPIPE: the process ended
  inside it. Always the last step of a run. -/
  | sigpipe (fd : Int) (len : Nat)
  /-- A collaborator call. -/
  | call (f : Call)
  /-- The call `socket(AF_INET, SOCK_STREAM, 0)` and its result. -/
  | socket (result : Int)
  /-- The call `bind(serverSocket, ...)` and its result. -/
  | bind (result : Int)
  /-- The call `listen(serverSocket, 1)` and its result. -/
  | listen (result : Int)
  /-- The call `accept(serverSocket, NULL, NULL)` and its result. -/
  | accept (result : Int)
  /-- The call `close(fd)`. -/
  | close (fd : Int)
deriving DecidableEq, Repr

/-- How the `while (totalReceived < imageSize)` loop was left. -/
inductive LoopExit where
  /-- The loop condition became false. -/
  | complete
  /-- The `return` inside the loop (`received <= 0`). -/
  | failed
  /-- The iteration bound of the model ran out (shown never to happen). -/
  | exhausted
deriving DecidableEq, Repr

/-- State when the receive loop is left. -/
structure LoopOut where
  exit : LoopExit
  sock : Socket
  buffer : List Byte
  totalReceived : Int
  trace : List Event
deriving DecidableEq, Repr

/-- The loop of `receiveImageFromSocket` (main.cpp lines 38-47), at most `fuel`
iterations from the state `(s, buffer, totalReceived)`. The sum
`totalReceived += received` is taken in `Int` without wrap-around: `recv` never
returns more than the `imageSize - totalReceived` asked for (`recv_result_le`),
so the sum stays at most `imageSize`, which fits an `int`. -/
def recvLoop (imageSize : Int) : Nat → Socket → List Byte → Int → LoopOut
  | 0, s, buffer, totalReceived =>
    ⟨if totalReceived < imageSize then .exhausted else .complete,
      s, buffer, totalReceived, []⟩
  | fuel + 1, s, buffer, totalReceived =>
    if totalReceived < imageSize then
      let r := recv s (imageSize - totalReceived).toNat
      let ev := Event.recvData s.fd totalReceived (imageSize - totalReceived) r.result
      if r.result ≤ 0 then
        ⟨.failed, r.sock, writeAt buffer totalReceived.toNat r.bytes, totalReceived,
          [ev, Event.log Msg.errorReceivingData]⟩
      else
        let out := recvLoop imageSize fuel r.sock
          (writeAt buffer totalReceived.toNat r.bytes) (totalReceived + r.result)
        { out with trace := ev :: out.trace }
    else
      ⟨.complete, s, buffer, totalReceived, []⟩

/-- What `receiveImageFromSocket` leaves behind: the socket, the caller's
`image` and the steps taken. -/
structure RecvImage (Mat : Type) where
  sock : Socket
  image : Mat
  trace : List Event

/-- The function `receiveImageFromSocket` (main.cpp lines 18-53). `imdecode` is
`cv::imdecode`, `stack` the content of the storage of the uninitialised
local `imageSize`, `image` the caller's `cv::Mat` passed by reference.
The loop gets `imageSize` iterations, one for each byte it can still need. -/
def receiveImageFromSocket {Mat : Type} (imdecode : List Byte → Mat) (stack : List Byte)
    (clientSocket : Socket) (image : Mat) : RecvImage Mat :=
  let r := recv clientSocket 4
  let ev := Event.recvSize clientSocket.fd r.result
  if r.result = -1 then
    ⟨r.sock, image, [ev, Event.log Msg.errorReceivingSize]⟩
  else
    let imageSize := int32OfBytes (overlay r.bytes stack)
    if imageSize ≤ 0 then
      ⟨r.sock, image, [ev, Event.log (Msg.invalidSize imageSize)]⟩
    else
      let out := recvLoop imageSize imageSize.toNat r.sock
        (List.replicate imageSize.toNat 0) 0
      let head := [ev, Event.log (Msg.receivedSize imageSize), Event.alloc imageSize]
        ++ out.trace
      match out.exit with
      | .complete =>
        ⟨out.sock, imdecode out.buffer,
          head ++ [Event.log Msg.receivedData, Event.imdecode out.buffer]⟩
      | _ => ⟨out.sock, image, head⟩

/-- Modelled from the spec: the collaborators of `main.cpp` whose source is not
in the repository's `src/` (OpenCV, the TensorRT wrappers, the serializer),
each a deterministic function as section 6 of the specification describes it:
`decode_image(bytes)` gives a pixel buffer (an empty `cv::Mat` on malformed
input), `preprocess` "writes into the input slot", `run_inference`
"populates the output slot and its host mirror", `decode_and_suppress` turns the
host output into a detection batch, and the codec's `encode` turns the batch
into bytes. The thresholds and sizes `kInputW`, `kInputH`, `kOutputSize`,
`kConfThresh`, `kNmsThresh` are constants and are part of the functions. -/
structure Collaborators (Mat Tensor Output Batch : Type) where
  /-- The default-constructed `cv::Mat frame;`. -/
  emptyMat : Mat
  /-- The function `cv::imdecode(buffer, IMREAD_UNCHANGED)`. -/
  imdecode : List Byte → Mat
  /-- New content of `device_buffers[0]` after `cuda_preprocess(frame, ...)`. -/
  cuda_preprocess : Mat → Tensor
  /-- New content of `device_buffers[1]` and of `output_buffer_host` after
  `infer(...)`, from the content of `device_buffers[0]`. -/
  infer : Tensor → Output
  /-- Content of `res_batch` after `batch_nms(res_batch, output_buffer_host, ...)`. -/
  batch_nms : Output → Batch
  /-- The string returned by `serializeDetectionsToJson(detections)`. -/
  serializeDetectionsToJson : Batch → List Byte

/-- What `sendDetectionsToSocket` leaves behind. The C++ function returns
`void`: the caller gets no value. -/
structure SendResult where
  sock : Socket
  /-- The process ended inside one of the `send` calls (SIGPIPE): the function
  did not return. -/
  terminated : Bool
  trace : List Event
deriving DecidableEq, Repr

/-- The function `sendDetectionsToSocket` (main.cpp lines 55-67):
two `send` calls whose return values are discarded. A `send` that raises
SIGPIPE ends the process, so nothing after it is executed. -/
def sendDetectionsToSocket {Batch : Type} (serializeDetectionsToJson : Batch → List Byte)
    (clientSocket : Socket) (detections : Batch) : SendResult :=
  let jsonDetections := serializeDetectionsToJson detections
  let size := jsonDetections.length
  let s1 := send clientSocket (bytesOfSizeT size)
  if s1.signal then
    ⟨s1.sock, true, [Event.sigpipe clientSocket.fd 8]⟩
  else
    let s2 := send s1.sock jsonDetections
    if s2.signal then
      ⟨s2.sock, true,
        [Event.send clientSocket.fd 8 s1.result, Event.sigpipe clientSocket.fd size]⟩
    else
      ⟨s2.sock, false,
        [Event.send clientSocket.fd 8 s1.result, Event.send clientSocket.fd size s2.result]⟩

/-- The memory `prepare_buffer` allocates once and every request reuses. -/
structure Buffers (Tensor Output : Type) where
  /-- Content of `device_buffers[0]`. -/
  deviceInput : Tensor
  /-- Content of `device_buffers[1]`. -/
  deviceOutput : Output
  /-- Content of `output_buffer_host`. -/
  outputHost : Output

/-- One completed `accept`: the connection it returned (descriptor `-1` when
`accept` failed) and the bytes that the storage of `imageSize` holds when
`receiveImageFromSocket` is entered for it. -/
structure Accepted where
  sock : Socket
  stack : List Byte
deriving DecidableEq, Repr

/-- State after one iteration of the accept loop. -/
structure Served (Tensor Output : Type) where
  sock : Socket
  bufs : Buffers Tensor Output
  /-- The process ended inside `sendDetectionsToSocket`: the iteration was
  not completed. -/
  terminated : Bool
  trace : List Event

/-- The body of the accept loop after a successful `accept`
(main.cpp lines 137-155). -/
def serveClient {Mat Tensor Output Batch : Type} (c : Collaborators Mat Tensor Output Batch)
    (bufs : Buffers Tensor Output) (a : Accepted) : Served Tensor Output :=
  let frame := c.emptyMat
  let rcv := receiveImageFromSocket c.imdecode a.stack a.sock frame
  let bufs1 : Buffers Tensor Output := { bufs with deviceInput := c.cuda_preprocess rcv.image }
  let bufs2 : Buffers Tensor Output :=
    { bufs1 with deviceOutput := c.infer bufs1.deviceInput,
                 outputHost := c.infer bufs1.deviceInput }
  let res_batch := c.batch_nms bufs2.outputHost
  let snd := sendDetectionsToSocket c.serializeDetectionsToJson rcv.sock res_batch
  ⟨snd.sock, bufs2, snd.terminated,
    rcv.trace ++ [Event.call Call.cuda_preprocess, Event.call Call.infer,
      Event.call Call.batch_nms] ++ snd.trace
      ++ (if snd.terminated then [] else [Event.close a.sock.fd])⟩

/-- A run of `main`, or of its accept loop. -/
structure Run (Tensor Output : Type) where
  /-- The value `main` returns, `none` when it does not return (it is blocked
  in `accept` with no client left, or the process was ended by SIGPIPE). -/
  exit : Option Int
  trace : List Event
  /-- The connections served, in order, as they are when their iteration ends. -/
  served : List Socket
  bufs : Buffers Tensor Output
  /-- The process was ended by SIGPIPE inside a `send`. -/
  killed : Bool

/-- The loop `while (1)` of `main` (main.cpp lines 126-156) against the list of
the outcomes of the successive `accept` calls. -/
def acceptLoop {Mat Tensor Output Batch : Type} (c : Collaborators Mat Tensor Output Batch)
    (serverSocket : Int) : List Accepted → Buffers Tensor Output → Run Tensor Output
  | [], bufs => ⟨none, [], [], bufs, false⟩
  | a :: rest, bufs =>
    if a.sock.fd = -1 then
      ⟨some (-1), [Event.accept (-1), Event.log Msg.errorAccepting, Event.close serverSocket],
        [], bufs, false⟩
    else
      let sv := serveClient c bufs a
      if sv.terminated then
        ⟨none, Event.accept a.sock.fd :: Event.log Msg.clientConnected :: sv.trace,
          [sv.sock], sv.bufs, true⟩
      else
        let run := acceptLoop c serverSocket rest sv.bufs
        ⟨run.exit,
          Event.accept a.sock.fd :: Event.log Msg.clientConnected :: (sv.trace ++ run.trace),
          sv.sock :: run.served, run.bufs, run.killed⟩

/-- Everything outside the program that a run of `main` depends on. -/
structure Env (Tensor Output : Type) where
  argc : Int
  /-- Return value of `socket`. -/
  socketResult : Int
  /-- Return value of `bind`. -/
  bindResult : Int
  /-- Return value of `listen`. -/
  listenResult : Int
  /-- Content of the buffers as `prepare_buffer` leaves them. -/
  bufs : Buffers Tensor Output
  /-- Outcome of each `accept`, in order. -/
  clients : List Accepted

/-- The collaborator calls before the socket is created (main.cpp lines 87-96). -/
def startup : List Event :=
  [Event.call Call.cudaSetDevice, Event.call Call.deserialize_engine,
    Event.call Call.cudaStreamCreate, Event.call Call.cuda_preprocess_init,
    Event.call Call.prepare_buffer]

/-- The function `main` (main.cpp lines 69-170). The statements after the
loop (lines 158-169) have no counterpart: the loop has no `break`. -/
def main {Mat Tensor Output Batch : Type} (c : Collaborators Mat Tensor Output Batch)
    (env : Env Tensor Output) : Run Tensor Output :=
  if env.argc ≠ 3 then
    ⟨some (-1), [Event.call Call.cudaSetDevice, Event.log Msg.usage], [], env.bufs, false⟩
  else
    let serverSocket := env.socketResult
    if serverSocket = -1 then
      ⟨some (-1), startup ++ [Event.socket serverSocket, Event.log Msg.errorCreatingSocket],
        [], env.bufs, false⟩
    else if env.bindResult = -1 then
      ⟨some (-1), startup ++ [Event.socket serverSocket, Event.bind env.bindResult,
        Event.log Msg.errorBinding, Event.close serverSocket], [], env.bufs, false⟩
    else if env.listenResult = -1 then
      ⟨some (-1), startup ++ [Event.socket serverSocket, Event.bind env.bindResult,
        Event.listen env.listenResult, Event.log Msg.errorListening,
        Event.close serverSocket], [], env.bufs, false⟩
    else
      let run := acceptLoop c serverSocket env.clients env.bufs
      { run with trace := startup ++ [Event.socket serverSocket, Event.bind env.bindResult,
        Event.listen env.listenResult, Event.log Msg.waiting] ++ run.trace }

/-- The reads of the receive loop for a declared length `n` on `fd`, checked
from offset `off` up to offset `stop`: each event is a `recv` into the buffer
at exactly the offset reached so far, asking for exactly the `n - off` bytes
still missing, with a result that is positive and no larger than asked; after
the last one the offset is `stop`. -/
def readsUpTo (fd : Int) (n stop : Int) : Int → List Event → Bool
  | off, [] => decide (off = stop)
  | off, Event.recvData g o len r :: es =>
    decide (g = fd ∧ o = off ∧ len = n - off ∧ 0 < r ∧ r ≤ len)
      && readsUpTo fd n stop (off + r) es
  | _, _ :: _ => false

/-- Where a trace stands with respect to client connections: none open, or
one open on `fd` with the number of length-field reads and of `send` calls
made on it so far; `stopped` once the listening socket is closed; `dead`
once the process has been ended by SIGPIPE with the connection on `fd` still
open. -/
inductive Phase where
  | idle
  | serving (fd : Int) (receives sends : Nat)
  | stopped
  | dead (fd : Int)
deriving DecidableEq, Repr

/-- One step of the check that connections are served one at a time. With a
connection open: no `accept`; socket calls only on its descriptor; one
length-field `recv`, first; buffer reads only after it and before any `send`;
two `send` calls (the length field of 8 bytes, then the payload), which are
the one response; `close` only after that; a `send` that raises SIGPIPE takes
the place of one of the two and ends the run. With none open: no `recv`,
`send` or `close` of a client descriptor. -/
def serialStep (serverSocket : Int) : Phase → Event → Option Phase
  | Phase.stopped, _ => none
  | Phase.dead _, _ => none
  | Phase.idle, Event.sigpipe _ _ => none
  | Phase.idle, Event.accept r => if r = -1 then some Phase.idle else some (Phase.serving r 0 0)
  | Phase.idle, Event.close g => if g = serverSocket then some Phase.stopped else none
  | Phase.idle, Event.recvSize _ _ => none
  | Phase.idle, Event.recvData _ _ _ _ => none
  | Phase.idle, Event.send _ _ _ => none
  | Phase.idle, _ => some Phase.idle
  | Phase.serving _ _ _, Event.accept _ => none
  | Phase.serving fd rc sn, Event.close g =>
    if g = fd ∧ rc = 1 ∧ sn = 2 then some Phase.idle else none
  | Phase.serving fd rc sn, Event.recvSize g _ =>
    if g = fd ∧ rc = 0 ∧ sn = 0 then some (Phase.serving fd 1 0) else none
  | Phase.serving fd rc sn, Event.recvData g _ _ _ =>
    if g = fd ∧ rc = 1 ∧ sn = 0 then some (Phase.serving fd 1 0) else none
  | Phase.serving fd rc sn, Event.send g len _ =>
    if g = fd ∧ rc = 1 ∧ (sn = 0 ∧ len = 8 ∨ sn = 1) then some (Phase.serving fd 1 (sn + 1))
    else none
  | Phase.serving fd rc sn, Event.sigpipe g len =>
    if g = fd ∧ rc = 1 ∧ (sn = 0 ∧ len = 8 ∨ sn = 1) then some (Phase.dead fd) else none
  | Phase.serving fd rc sn, _ => some (Phase.serving fd rc sn)

/-- The check run over a trace from a phase; `none` when a step is refused. -/
def serialFrom (serverSocket : Int) : Phase → List Event → Option Phase
  | p, [] => some p
  | p, e :: es =>
    match serialStep serverSocket p e with
    | none => none
    | some q => serialFrom serverSocket q es

/-- A trace serves connections strictly one after the other: every step is
allowed and no connection is left open at the end. -/
def serial (serverSocket : Int) (trace : List Event) : Bool :=
  match serialFrom serverSocket Phase.idle trace with
  | some Phase.idle => true
  | some Phase.stopped => true
  | _ => false

/-- A trace handles short writes: a `send` that returns anything but the
length offered is followed at once by an error line and by no other `send`. -/
def shortWriteHandled : List Event → Bool
  | [] => true
  | Event.send _ len r :: es =>
    if r = (len : Int) then shortWriteHandled es
    else
      (match es with
        | Event.log _ :: _ => true
        | _ => false)
      && es.all (fun e => match e with
        | Event.send _ _ _ => false
        | Event.sigpipe _ _ => false
        | _ => true)
  | _ :: es => shortWriteHandled es

/-- Stand-ins for the collaborators, used to run the program on concrete
connections: an image is the list of its encoded bytes, the decoder accepts a
buffer that starts with the bytes `66 77` and gives the empty image for any
other, and each later stage hands its input on unchanged. -/
def demo : Collaborators (List Byte) (List Byte) (List Byte) (List Byte) where
  emptyMat := []
  imdecode := fun b => if b.take 2 = [66, 77] then b else []
  cuda_preprocess := fun m => m
  infer := fun t => t
  batch_nms := fun o => o
  serializeDetectionsToJson := fun d => d

/-! ## The transport -/

theorem recv_fd (s : Socket) (len : Nat) : (recv s len).sock.fd = s.fd := by
  unfold recv
  split
  · rfl
  · split <;> rfl

theorem recv_tx (s : Socket) (len : Nat) :
    (recv s len).sock.tx = s.tx ∧ (recv s len).sock.txScript = s.txScript := by
  unfold recv
  split
  · exact ⟨rfl, rfl⟩
  · split <;> exact ⟨rfl, rfl⟩

theorem recv_result_le (s : Socket) (len : Nat) : (recv s len).result ≤ len := by
  unfold recv
  split
  · simp only; omega
  · split
    · simp only; omega
    · simp only; omega

/-- A `recv` on a stream that still holds the `len > 0` bytes asked for and
whose script has no end-of-stream or error entry delivers a positive number
`m ≤ len` of bytes, the next `m` of the stream. -/
theorem recv_deliver (s : Socket) (len : Nat) (data rest : List Byte)
    (hrx : s.rx = data ++ rest) (hd : len ≤ data.length) (hl : 0 < len)
    (hs : ∀ k ∈ s.rxScript, 0 < k) :
    ∃ m : Nat, 0 < m ∧ m ≤ len ∧
      recv s len = ⟨(m : Int), data.take m,
        { s with rx := data.drop m ++ rest, rxScript := s.rxScript.tail }⟩ := by
  unfold recv
  split
  · rename_i hnil
    refine ⟨len, hl, le_refl _, ?_⟩
    have hmin : min len s.rx.length = len := by
      rw [hrx, List.length_append]; omega
    simp only [hmin, hnil, List.tail_nil]
    rw [hrx, List.take_append_of_le_length hd, List.drop_append_of_le_length hd]
  · rename_i k ks hcons
    have hk : 0 < k := hs k (by rw [hcons]; exact List.mem_cons_self _ _)
    have hnot : ¬ k < 0 := by omega
    rw [if_neg hnot]
    have hmle : min (min k.toNat len) s.rx.length ≤ data.length := by
      rw [hrx, List.length_append]; omega
    refine ⟨min (min k.toNat len) s.rx.length, ?_, ?_, ?_⟩
    · rw [hrx, List.length_append]; omega
    · omega
    · simp only [hcons, List.tail_cons]
      rw [hrx, List.take_append_of_le_length (by rw [← hrx]; exact hmle),
        List.drop_append_of_le_length (by rw [← hrx]; exact hmle)]

/-! ## The receive loop -/

/-- The iteration bound is never what stops the loop: with at least
`imageSize - totalReceived` iterations allowed, the loop is left because its
condition is false or through the `return` inside it. -/
theorem recvLoop_not_exhausted (imageSize : Int) :
    ∀ (fuel : Nat) (s : Socket) (buffer : List Byte) (totalReceived : Int),
      (imageSize - totalReceived).toNat ≤ fuel →
      (recvLoop imageSize fuel s buffer totalReceived).exit ≠ LoopExit.exhausted := by
  intro fuel
  induction fuel with
  | zero =>
    intro s buffer t h
    have ht : ¬ t < imageSize := by omega
    simp [recvLoop, ht]
  | succ fuel ih =>
    intro s buffer t h
    unfold recvLoop
    by_cases ht : t < imageSize
    · rw [if_pos ht]
      by_cases hr : (recv s (imageSize - t).toNat).result ≤ 0
      · simp [hr]
      · simp only [hr, if_false]
        exact ih _ _ _ (by omega)
    · simp [ht]

/-- The loop on a stream that holds the `n - t` bytes still missing and whose
script has no end-of-stream or error entry. -/
theorem recvLoop_complete (n : Nat) :
    ∀ (fuel t : Nat) (s : Socket) (buffer data rest : List Byte),
      t ≤ n → data.length = n - t → s.rx = data ++ rest →
      (∀ k ∈ s.rxScript, 0 < k) → buffer.length = n → n - t ≤ fuel →
      (recvLoop n fuel s buffer t).exit = LoopExit.complete ∧
      (recvLoop n fuel s buffer t).sock.rx = rest ∧
      (recvLoop n fuel s buffer t).buffer = buffer.take t ++ data ∧
      (recvLoop n fuel s buffer t).totalReceived = n ∧
      readsUpTo s.fd n n t (recvLoop n fuel s buffer t).trace = true ∧
      (recvLoop n fuel s buffer t).trace.length ≤ n - t ∧
      (recvLoop n fuel s buffer t).sock.fd = s.fd ∧
      (recvLoop n fuel s buffer t).sock.tx = s.tx ∧
      (recvLoop n fuel s buffer t).sock.txScript = s.txScript := by
  intro fuel
  induction fuel with
  | zero =>
    intro t s buffer data rest htn hdata hrx _ hbuf hfuel
    have heq : t = n := by omega
    subst heq
    have hnil : data = [] := List.eq_nil_of_length_eq_zero (by omega)
    subst hnil
    simp [recvLoop, readsUpTo, hrx, ← hbuf]
  | succ fuel ih =>
    intro t s buffer data rest htn hdata hrx hs hbuf hfuel
    unfold recvLoop
    by_cases ht : (t : Int) < (n : Int)
    · rw [if_pos ht]
      have htn2 : t < n := by exact_mod_cast ht
      have hlen : ((n : Int) - (t : Int)).toNat = n - t := by omega
      obtain ⟨m, hm0, hmle, hrecv⟩ :=
        recv_deliver s (n - t) data rest hrx (by omega) (by omega) hs
      rw [hlen, hrecv]
      have hnot : ¬ ((m : Int) ≤ 0) := by omega
      simp only [hnot, if_false]
      have hcast : (t : Int) + (m : Int) = ((t + m : Nat) : Int) := by push_cast; rfl
      have htoNat : (t : Int).toNat = t := Int.toNat_natCast t
      rw [hcast, htoNat]
      have htake : (data.take m).length = m := by
        rw [List.length_take]; omega
      have hwlen : (writeAt buffer t (data.take m)).length = n := by
        unfold writeAt
        simp only [List.length_append, List.length_take, List.length_drop, htake]
        omega
      have hwtake : (writeAt buffer t (data.take m)).take (t + m) =
          buffer.take t ++ data.take m := by
        unfold writeAt
        have h1 : (buffer.take t ++ data.take m).length = t + m := by
          simp only [List.length_append, List.length_take, htake]; omega
        rw [List.take_append_of_le_length (by omega), List.take_of_length_le (by omega)]
      have hih := ih (t + m)
        { s with rx := data.drop m ++ rest, rxScript := s.rxScript.tail }
        (writeAt buffer t (data.take m)) (data.drop m) rest (by omega)
        (by rw [List.length_drop]; omega) rfl
        (fun k hk => hs k (List.mem_of_mem_tail hk)) hwlen (by omega)
      obtain ⟨h1, h2, h3, h4, h5, h6, h7, h8, h9⟩ := hih
      refine ⟨h1, h2, ?_, h4, ?_, ?_, h7, h8, h9⟩
      · rw [h3, hwtake, List.append_assoc, List.take_append_drop]
      · rw [readsUpTo, Bool.and_eq_true, decide_eq_true_eq]
        refine ⟨⟨rfl, rfl, rfl, by omega, by omega⟩, ?_⟩
        rw [hcast]; exact h5
      · simp only [List.length_cons]; omega
    · have heq : t = n := by omega
      subst heq
      have hnil : data = [] := List.eq_nil_of_length_eq_zero (by omega)
      subst hnil
      simp [readsUpTo, hrx, ← hbuf]

/-- A `recv` that reports end-of-stream or an error stores nothing and
consumes nothing. -/
theorem recv_fail (s : Socket) (len : Nat) (h : (recv s len).result ≤ 0) :
    (recv s len).bytes = [] ∧ (recv s len).sock.rx = s.rx ∧
      ((recv s len).result = 0 ∨ (recv s len).result = -1) := by
  cases hsc : s.rxScript with
  | nil =>
    simp only [recv, hsc] at h ⊢
    have h0 : min len s.rx.length = 0 := by omega
    simp [h0]
  | cons k ks =>
    simp only [recv, hsc] at h ⊢
    by_cases hk : k < 0
    · simp [hk]
    · simp only [hk, if_false] at h ⊢
      have h0 : min (min k.toNat len) s.rx.length = 0 := by omega
      simp [h0]

/-- A `recv` whose script entry `k > 0` fits both the request and the stream
delivers exactly `k` bytes. -/
theorem recv_chunk (s : Socket) (len : Nat) (k : Int) (ks : List Int)
    (data rest : List Byte) (hscript : s.rxScript = k :: ks) (hk : 0 < k)
    (hrx : s.rx = data ++ rest) (hkd : k.toNat ≤ data.length) (hkl : k.toNat ≤ len) :
    recv s len = ⟨(k.toNat : Int), data.take k.toNat,
      { s with rx := data.drop k.toNat ++ rest, rxScript := ks }⟩ := by
  unfold recv
  split
  · rename_i hnil; rw [hnil] at hscript; cases hscript
  · rename_i k2 ks2 hcons
    rw [hcons] at hscript
    injection hscript with e1 e2
    subst e1; subst e2
    have hnot : ¬ k2 < 0 := by omega
    have hmin : min (min k2.toNat len) s.rx.length = k2.toNat := by
      rw [hrx, List.length_append]; omega
    simp only [hnot, if_false, hmin]
    rw [hrx, List.take_append_of_le_length hkd, List.drop_append_of_le_length hkd]

/-- The loop on a stream that delivers `data` in the chunks of the script and
then reports end-of-stream or an error while bytes are still missing. -/
theorem recvLoop_short (n : Nat) :
    ∀ (chunks : List Int) (fuel t K : Nat) (s : Socket) (buffer data rest : List Byte)
      (tailScript : List Int),
      (∀ k ∈ chunks, 0 < k) → chunks.sum = (data.length : Int) → K = t + data.length →
      K < n → s.rx = data ++ rest → s.rxScript = chunks ++ tailScript → n - t ≤ fuel →
      (recv { s with rx := rest, rxScript := tailScript } (n - K)).result ≤ 0 →
      (recvLoop n fuel s buffer t).exit = LoopExit.failed ∧
      (recvLoop n fuel s buffer t).sock.rx = rest ∧
      (recvLoop n fuel s buffer t).sock.fd = s.fd ∧
      ∃ reads : List Event,
        (recvLoop n fuel s buffer t).trace = reads ++
          [Event.recvData s.fd K ((n : Int) - K)
            (recv { s with rx := rest, rxScript := tailScript } (n - K)).result,
           Event.log Msg.errorReceivingData] ∧
        readsUpTo s.fd n K t reads = true ∧ reads.length = chunks.length := by
  intro chunks
  induction chunks with
  | nil =>
    intro fuel t K s buffer data rest tailScript _ hsum hK hKn hrx hscript hfuel hfail
    have hnil : data = [] := List.eq_nil_of_length_eq_zero (by simpa using hsum.symm)
    subst hnil
    simp only [List.length_nil, Nat.add_zero] at hK
    subst hK
    have hs : ({ s with rx := rest, rxScript := tailScript } : Socket) = s := by
      cases s; simp_all
    rw [hs] at hfail ⊢
    cases fuel with
    | zero => omega
    | succ f =>
      unfold recvLoop
      have ht : (K : Int) < (n : Int) := by exact_mod_cast hKn
      have hlen : ((n : Int) - (K : Int)).toNat = n - K := by omega
      obtain ⟨_, hrx2, _⟩ := recv_fail s (n - K) hfail
      rw [if_pos ht, hlen, if_pos hfail]
      refine ⟨rfl, ?_, recv_fd s _, [], rfl, ?_, rfl⟩
      · rw [hrx2, hrx]; rfl
      · simp [readsUpTo]
  | cons k ks ih =>
    intro fuel t K s buffer data rest tailScript hpos hsum hK hKn hrx hscript hfuel hfail
    have hk : 0 < k := hpos k (List.mem_cons_self _ _)
    rw [List.sum_cons] at hsum
    have hks : (0 : Int) ≤ ks.sum :=
      List.sum_nonneg (fun x hx => le_of_lt (hpos x (List.mem_cons_of_mem _ hx)))
    cases fuel with
    | zero => omega
    | succ f =>
      unfold recvLoop
      have ht : (t : Int) < (n : Int) := by omega
      have hlen : ((n : Int) - (t : Int)).toNat = n - t := by omega
      have hrecv := recv_chunk s (n - t) k (ks ++ tailScript) data rest hscript hk hrx (by omega) (by omega)
      have hnot : ¬ ((k.toNat : Int) ≤ 0) := by omega
      rw [if_pos ht, hlen, hrecv]
      simp only [hnot, if_false]
      have hcast : (t : Int) + (k.toNat : Int) = ((t + k.toNat : Nat) : Int) := by
        push_cast; rfl
      rw [hcast, Int.toNat_natCast]
      have hih := ih f (t + k.toNat) K
        { s with rx := data.drop k.toNat ++ rest, rxScript := ks ++ tailScript }
        (writeAt buffer t (data.take k.toNat)) (data.drop k.toNat) rest tailScript
        (fun x hx => hpos x (List.mem_cons_of_mem _ hx))
        (by rw [List.length_drop]; omega) (by rw [List.length_drop]; omega) hKn rfl rfl
        (by omega) hfail
      obtain ⟨h1, h2, h3, reads, h4, h5, h6⟩ := hih
      refine ⟨h1, h2, h3, Event.recvData s.fd t ((n : Int) - t) k.toNat :: reads, ?_, ?_, ?_⟩
      · show _ :: _ = _
        rw [h4]; rfl
      · rw [readsUpTo, Bool.and_eq_true, decide_eq_true_eq]
        refine ⟨⟨rfl, rfl, rfl, by omega, by omega⟩, ?_⟩
        rw [hcast]; exact h5
      · simp [h6]

/-- The loop never changes which descriptor the socket is, nor its send side. -/
theorem recvLoop_sock (imageSize : Int) :
    ∀ (fuel : Nat) (s : Socket) (buffer : List Byte) (totalReceived : Int),
      (recvLoop imageSize fuel s buffer totalReceived).sock.fd = s.fd ∧
      (recvLoop imageSize fuel s buffer totalReceived).sock.tx = s.tx ∧
      (recvLoop imageSize fuel s buffer totalReceived).sock.txScript = s.txScript := by
  intro fuel
  induction fuel with
  | zero => intro s buffer t; simp [recvLoop]
  | succ fuel ih =>
    intro s buffer t
    unfold recvLoop
    by_cases ht : t < imageSize
    · rw [if_pos ht]
      by_cases hr : (recv s (imageSize - t).toNat).result ≤ 0
      · simp only [hr, if_true]
        exact ⟨recv_fd s _, recv_tx s _⟩
      · simp only [hr, if_false]
        obtain ⟨h1, h2, h3⟩ := ih (recv s (imageSize - t).toNat).sock
          (writeAt buffer t.toNat (recv s (imageSize - t).toNat).bytes)
          (t + (recv s (imageSize - t).toNat).result)
        exact ⟨h1.trans (recv_fd s _), h2.trans (recv_tx s _).1, h3.trans (recv_tx s _).2⟩
    · simp [ht]

/-- Every event of a checked list of reads is a `recv` into the buffer. -/
theorem readsUpTo_mem (fd n stop : Int) :
    ∀ (reads : List Event) (off : Int), readsUpTo fd n stop off reads = true →
      ∀ e ∈ reads, ∃ o l r, e = Event.recvData fd o l r := by
  intro reads
  induction reads with
  | nil => intro off _ e he; cases he
  | cons ev es ih =>
    intro off h e he
    cases ev with
    | recvData g o len r =>
      rw [readsUpTo, Bool.and_eq_true, decide_eq_true_eq] at h
      rcases List.mem_cons.mp he with rfl | hmem
      · exact ⟨o, len, r, by rw [h.1.1]⟩
      · exact ih _ h.2 e hmem
    | _ => simp [readsUpTo] at h

/-! ## Receiving one image -/

/-- Four bytes written over the storage of `imageSize` determine its value. -/
theorem int32OfBytes_overlay (lenBytes stack : List Byte) (hlen : lenBytes.length = 4) :
    int32OfBytes (overlay lenBytes stack) = int32OfBytes lenBytes := by
  match lenBytes, hlen with
  | [a, b, c, d], _ => simp [int32OfBytes, overlay]

/-- The first `recv` when the transport hands over the whole length field. -/
theorem recv_size_whole (fd k0 : Int) (lenBytes more : List Byte) (ks : List Int)
    (tx : List Byte) (txScript : List SendStep) (hlen : lenBytes.length = 4) (hk0 : 4 ≤ k0) :
    recv ⟨fd, lenBytes ++ more, k0 :: ks, tx, txScript⟩ 4 =
      ⟨4, lenBytes, ⟨fd, more, ks, tx, txScript⟩⟩ := by
  unfold recv
  have hnot : ¬ k0 < 0 := by omega
  have hmin : min (min k0.toNat 4) (lenBytes ++ more).length = 4 := by
    rw [List.length_append]; omega
  simp only [hnot, if_false, hmin]
  rw [List.take_append_of_le_length (by omega), List.drop_append_of_le_length (by omega),
    List.take_of_length_le (by omega), List.drop_of_length_le (by omega)]
  simp

/-- C1. In `receiveImageFromSocket`, for every declared length `N > 0` whose
4-byte field arrives in one `recv` and for every way the transport cuts the
`N` payload bytes into positive `recv` results, the loop ends after at most
`N` reads with the buffer equal to the `N` payload bytes in order (it is what
`imdecode` is given); every read asks for exactly `N - totalReceived` bytes at
offset `totalReceived` (`readsUpTo`), and the bytes after the `N`-th stay in the
stream. -/
theorem receive_exact_length {Mat : Type} (imdecode : List Byte → Mat)
    (stack lenBytes payload rest : List Byte) (fd k0 : Int) (chunks : List Int)
    (tx : List Byte) (txScript : List SendStep) (image : Mat)
    (hlen : lenBytes.length = 4)
    (hN : int32OfBytes lenBytes = (payload.length : Int))
    (hpos : 0 < payload.length) (hk0 : 4 ≤ k0) (hchunks : ∀ k ∈ chunks, 0 < k) :
    ∃ reads : List Event,
      (receiveImageFromSocket imdecode stack
          ⟨fd, lenBytes ++ (payload ++ rest), k0 :: chunks, tx, txScript⟩ image).trace
        = [Event.recvSize fd 4, Event.log (Msg.receivedSize payload.length),
            Event.alloc payload.length] ++ reads
          ++ [Event.log Msg.receivedData, Event.imdecode payload] ∧
      readsUpTo fd payload.length payload.length 0 reads = true ∧
      reads.length ≤ payload.length ∧
      (receiveImageFromSocket imdecode stack
          ⟨fd, lenBytes ++ (payload ++ rest), k0 :: chunks, tx, txScript⟩ image).image
        = imdecode payload ∧
      (receiveImageFromSocket imdecode stack
          ⟨fd, lenBytes ++ (payload ++ rest), k0 :: chunks, tx, txScript⟩ image).sock.rx
        = rest := by
  have hloop := recvLoop_complete payload.length payload.length 0
    ⟨fd, payload ++ rest, chunks, tx, txScript⟩ (List.replicate payload.length 0)
    payload rest (Nat.zero_le _) (by omega) rfl hchunks (List.length_replicate _ _)
    (by omega)
  simp only [Nat.cast_zero, Nat.sub_zero, List.take_zero, List.nil_append] at hloop
  obtain ⟨h1, h2, h3, _, h5, h6, _, _, _⟩ := hloop
  have hsz : ¬ ((payload.length : Int) ≤ 0) := by omega
  have hne : ¬ ((4 : Int) = -1) := by decide
  refine ⟨(recvLoop payload.length payload.length ⟨fd, payload ++ rest, chunks, tx, txScript⟩
    (List.replicate payload.length 0) 0).trace, ?_, h5, h6, ?_, ?_⟩
  all_goals
    simp only [receiveImageFromSocket, recv_size_whole fd k0 lenBytes (payload ++ rest)
      chunks tx txScript hlen hk0, int32OfBytes_overlay lenBytes stack hlen, hN, hsz, hne,
      if_false, Int.toNat_natCast]
    simp [h1, h2, h3]

/-- C1 at a concrete connection: length field `3`, payload `10 20 30` cut
into reads of 1 and 2 bytes, one more byte `40` behind it. -/
theorem receive_exact_length_witness :
    ∃ reads : List Event,
      (receiveImageFromSocket (fun b => b) [9, 9, 9, 9]
          ⟨5, [3, 0, 0, 0] ++ ([10, 20, 30] ++ [40]), 4 :: [1, 5], [], []⟩ []).trace
        = [Event.recvSize 5 4, Event.log (Msg.receivedSize ([10, 20, 30] : List Byte).length),
            Event.alloc ([10, 20, 30] : List Byte).length] ++ reads
          ++ [Event.log Msg.receivedData, Event.imdecode [10, 20, 30]] ∧
      readsUpTo 5 ([10, 20, 30] : List Byte).length ([10, 20, 30] : List Byte).length 0 reads
        = true ∧
      reads.length ≤ ([10, 20, 30] : List Byte).length ∧
      (receiveImageFromSocket (fun b => b) [9, 9, 9, 9]
          ⟨5, [3, 0, 0, 0] ++ ([10, 20, 30] ++ [40]), 4 :: [1, 5], [], []⟩ []).image
        = [10, 20, 30] ∧
      (receiveImageFromSocket (fun b => b) [9, 9, 9, 9]
          ⟨5, [3, 0, 0, 0] ++ ([10, 20, 30] ++ [40]), 4 :: [1, 5], [], []⟩ []).sock.rx
        = [40] :=
  receive_exact_length (fun b => b) [9, 9, 9, 9] [3, 0, 0, 0] [10, 20, 30] [40] 5 4 [1, 5]
    [] [] [] (by decide) (by decide) (by decide) (by decide) (by decide)

/-- C2. Whenever the length-field `recv` does not return `-1` and the value then
held by `imageSize` is zero or negative, `receiveImageFromSocket` returns at
once: its only steps are that one `recv` and the "Invalid image size" line (no
buffer, no further `recv`, no `imdecode`), the socket is as that `recv` left
it, and the caller's image is unchanged. -/
theorem nonpositive_length_rejected {Mat : Type} (imdecode : List Byte → Mat)
    (stack : List Byte) (s : Socket) (image : Mat)
    (hrecv : (recv s 4).result ≠ -1)
    (hsize : int32OfBytes (overlay (recv s 4).bytes stack) ≤ 0) :
    (receiveImageFromSocket imdecode stack s image).trace =
        [Event.recvSize s.fd (recv s 4).result,
          Event.log (Msg.invalidSize (int32OfBytes (overlay (recv s 4).bytes stack)))] ∧
      (receiveImageFromSocket imdecode stack s image).sock = (recv s 4).sock ∧
      (receiveImageFromSocket imdecode stack s image).image = image := by
  simp [receiveImageFromSocket, hrecv, hsize]

/-- C2 at a concrete connection: the length field is `-2147483648`. -/
theorem nonpositive_length_rejected_witness :
    (receiveImageFromSocket (fun b => b) [9, 9, 9, 9]
        ⟨5, [0, 0, 0, 128, 1, 2, 3], [4], [], []⟩ [77]).trace =
        [Event.recvSize 5 4, Event.log (Msg.invalidSize (-2147483648))] ∧
      (receiveImageFromSocket (fun b => b) [9, 9, 9, 9]
        ⟨5, [0, 0, 0, 128, 1, 2, 3], [4], [], []⟩ [77]).sock = ⟨5, [1, 2, 3], [], [], []⟩ ∧
      (receiveImageFromSocket (fun b => b) [9, 9, 9, 9]
        ⟨5, [0, 0, 0, 128, 1, 2, 3], [4], [], []⟩ [77]).image = [77] :=
  nonpositive_length_rejected (fun b => b) [9, 9, 9, 9]
    ⟨5, [0, 0, 0, 128, 1, 2, 3], [4], [], []⟩ [77] (by decide) (by decide)

/-- The socket `receiveImageFromSocket` hands back is the one it was given:
same descriptor, send side untouched. -/
theorem receive_sock {Mat : Type} (imdecode : List Byte → Mat) (stack : List Byte)
    (s : Socket) (image : Mat) :
    (receiveImageFromSocket imdecode stack s image).sock.fd = s.fd ∧
    (receiveImageFromSocket imdecode stack s image).sock.tx = s.tx ∧
    (receiveImageFromSocket imdecode stack s image).sock.txScript = s.txScript := by
  unfold receiveImageFromSocket
  simp only
  split
  · exact ⟨recv_fd s _, recv_tx s _⟩
  · split
    · exact ⟨recv_fd s _, recv_tx s _⟩
    · obtain ⟨h1, h2, h3⟩ := recvLoop_sock (int32OfBytes (overlay (recv s 4).bytes stack))
        (int32OfBytes (overlay (recv s 4).bytes stack)).toNat (recv s 4).sock
        (List.replicate (int32OfBytes (overlay (recv s 4).bytes stack)).toNat 0) 0
      split <;>
        exact ⟨h1.trans (recv_fd s _), h2.trans (recv_tx s _).1, h3.trans (recv_tx s _).2⟩

/-! ## Sending the response -/

/-- A `send` that returns the length offered has put all the bytes on the wire. -/
theorem send_all (s : Socket) (bytes : List Byte)
    (h : (send s bytes).result = (bytes.length : Int)) :
    (send s bytes).sock.tx = s.tx ++ bytes := by
  cases hsc : s.txScript with
  | nil => simp [send, hsc]
  | cons k ks =>
    cases k with
    | accept k =>
      simp only [send, hsc] at h ⊢
      have hmin : min k bytes.length = bytes.length := by omega
      simp [hmin]
    | error => simp only [send, hsc] at h; omega
    | sigpipe => simp only [send, hsc] at h; omega

/-- A `send` that raises SIGPIPE is not one that returns a count. -/
theorem send_signal (s : Socket) (bytes : List Byte) (h : 0 ≤ (send s bytes).result) :
    (send s bytes).signal = false := by
  cases hsc : s.txScript with
  | nil => simp [send, hsc]
  | cons k ks =>
    cases k with
    | accept k => simp [send, hsc]
    | error => simp [send, hsc]
    | sigpipe => simp [send, hsc] at h

theorem send_fd (s : Socket) (bytes : List Byte) : (send s bytes).sock.fd = s.fd := by
  unfold send
  split <;> rfl

theorem bytesOfSizeT_length (n : Nat) : (bytesOfSizeT n).length = 8 := by
  simp [bytesOfSizeT]

/-- The eight bytes of a `size_t` give back the value they were made from. -/
theorem sizeTOfBytes_bytesOfSizeT (n : Nat) (h : n < 2 ^ 64) :
    sizeTOfBytes (bytesOfSizeT n) = n := by
  simp only [sizeTOfBytes, bytesOfSizeT, List.range, List.range.loop, List.map_cons,
    List.map_nil, List.sum_cons, List.sum_nil, List.getD_cons_zero, List.getD_cons_succ]
  norm_num
  omega

theorem sendDetections_fd {Batch : Type} (serializeDetectionsToJson : Batch → List Byte)
    (s : Socket) (detections : Batch) :
    (sendDetectionsToSocket serializeDetectionsToJson s detections).sock.fd = s.fd := by
  unfold sendDetectionsToSocket
  simp only
  split
  · exact send_fd _ _
  · split
    · exact (send_fd _ _).trans (send_fd _ _)
    · exact (send_fd _ _).trans (send_fd _ _)

/-- The three ways `sendDetectionsToSocket` can go: SIGPIPE in the first
`send`; the first `send` returns and the second raises SIGPIPE; both return. -/
theorem sendDetections_cases {Batch : Type} (serializeDetectionsToJson : Batch → List Byte)
    (s : Socket) (detections : Batch) :
    ((sendDetectionsToSocket serializeDetectionsToJson s detections).terminated = true ∧
      (sendDetectionsToSocket serializeDetectionsToJson s detections).trace =
        [Event.sigpipe s.fd 8]) ∨
    ((sendDetectionsToSocket serializeDetectionsToJson s detections).terminated = true ∧
      ∃ r1 : Int, (sendDetectionsToSocket serializeDetectionsToJson s detections).trace =
        [Event.send s.fd 8 r1,
          Event.sigpipe s.fd (serializeDetectionsToJson detections).length]) ∨
    ((sendDetectionsToSocket serializeDetectionsToJson s detections).terminated = false ∧
      ∃ r1 r2 : Int, (sendDetectionsToSocket serializeDetectionsToJson s detections).trace =
        [Event.send s.fd 8 r1,
          Event.send s.fd (serializeDetectionsToJson detections).length r2]) := by
  unfold sendDetectionsToSocket
  simp only
  split
  · exact Or.inl ⟨rfl, rfl⟩
  · split
    · exact Or.inr (Or.inl ⟨rfl, _, rfl⟩)
    · exact Or.inr (Or.inr ⟨rfl, _, _, rfl⟩)

/-- C5. When the transport takes all the bytes both `send` calls offer,
`sendDetectionsToSocket` puts on the wire exactly the 8 bytes of the unsigned
little-endian integer `M` followed by the `M` bytes the serializer produced
for the batch, and nothing else; the length field decodes to the number of
payload bytes behind it (also for `M = 0`). -/
theorem send_wire_format {Batch : Type} (serializeDetectionsToJson : Batch → List Byte)
    (s : Socket) (detections : Batch)
    (hsize : (serializeDetectionsToJson detections).length < 2 ^ 64)
    (h1 : (send s (bytesOfSizeT (serializeDetectionsToJson detections).length)).result = 8)
    (h2 : (send (send s (bytesOfSizeT (serializeDetectionsToJson detections).length)).sock
      (serializeDetectionsToJson detections)).result =
        ((serializeDetectionsToJson detections).length : Int)) :
    (sendDetectionsToSocket serializeDetectionsToJson s detections).sock.tx =
        s.tx ++ bytesOfSizeT (serializeDetectionsToJson detections).length
          ++ serializeDetectionsToJson detections ∧
      (bytesOfSizeT (serializeDetectionsToJson detections).length).length = 8 ∧
      sizeTOfBytes (bytesOfSizeT (serializeDetectionsToJson detections).length) =
        (serializeDetectionsToJson detections).length ∧
      (sendDetectionsToSocket serializeDetectionsToJson s detections).trace =
        [Event.send s.fd 8 8,
          Event.send s.fd (serializeDetectionsToJson detections).length
            (serializeDetectionsToJson detections).length] := by
  have hl := bytesOfSizeT_length (serializeDetectionsToJson detections).length
  have ha := send_all s (bytesOfSizeT (serializeDetectionsToJson detections).length)
    (by rw [h1, hl]; rfl)
  have hb := send_all _ _ h2
  have hs1 := send_signal s (bytesOfSizeT (serializeDetectionsToJson detections).length)
    (by rw [h1]; decide)
  have hs2 := send_signal _ (serializeDetectionsToJson detections) (by rw [h2]; omega)
  refine ⟨?_, hl, sizeTOfBytes_bytesOfSizeT _ hsize, ?_⟩
  · simp only [sendDetectionsToSocket, hs1, hs2]
    simp only [Bool.false_eq_true, if_false]
    rw [hb, ha]
  · simp only [sendDetectionsToSocket, hs1, hs2, h1, h2]
    simp

/-- C5 at a concrete connection and batch, and at the empty serialization. -/
theorem send_wire_format_witness :
    (sendDetectionsToSocket demo.serializeDetectionsToJson
        ⟨5, [], [], [7], [SendStep.accept 8, SendStep.accept 100]⟩
        [1, 2, 3]).sock.tx = [7] ++ [3, 0, 0, 0, 0, 0, 0, 0] ++ [1, 2, 3] ∧
    (sendDetectionsToSocket demo.serializeDetectionsToJson ⟨5, [], [], [], []⟩
        []).sock.tx = [] ++ [0, 0, 0, 0, 0, 0, 0, 0] ++ [] :=
  ⟨(send_wire_format demo.serializeDetectionsToJson
      ⟨5, [], [], [7], [SendStep.accept 8, SendStep.accept 100]⟩ [1, 2, 3]
      (by decide) (by decide) (by decide)).1,
   (send_wire_format demo.serializeDetectionsToJson ⟨5, [], [], [], []⟩ []
      (by decide) (by decide) (by decide)).1⟩

/-- C6, refuted at a concrete connection: the transport takes only 3 of the 8
bytes of the length field; `sendDetectionsToSocket` goes on to send the
payload and writes no error line, so the short write is not handled, and the
wire holds a torn frame. -/
theorem short_write_goes_unnoticed :
    (sendDetectionsToSocket demo.serializeDetectionsToJson
        ⟨5, [], [], [], [SendStep.accept 3]⟩ [1, 2]).trace =
      [Event.send 5 8 3, Event.send 5 2 2] ∧
    shortWriteHandled (sendDetectionsToSocket demo.serializeDetectionsToJson
        ⟨5, [], [], [], [SendStep.accept 3]⟩ [1, 2]).trace = false ∧
    (sendDetectionsToSocket demo.serializeDetectionsToJson
        ⟨5, [], [], [], [SendStep.accept 3]⟩ [1, 2]).sock.tx = [2, 0, 0, 1, 2] := by
  decide

/-- C6 as amended. `sendDetectionsToSocket` discards the value both `send`
calls return: it writes no error line in any case; whatever the first `send`
returns, the next step is the `send` of all `M` payload bytes; and whatever
the two calls return, the function returns with exactly those two calls as
its steps. (A `send` that raises SIGPIPE does not return at all.) -/
theorem send_results_discarded {Batch : Type} (serializeDetectionsToJson : Batch → List Byte)
    (s : Socket) (detections : Batch) :
    (∀ m, Event.log m ∉ (sendDetectionsToSocket serializeDetectionsToJson s detections).trace) ∧
    ((send s (bytesOfSizeT (serializeDetectionsToJson detections).length)).signal = false →
      ∃ e : Event,
        (sendDetectionsToSocket serializeDetectionsToJson s detections).trace =
          [Event.send s.fd 8
            (send s (bytesOfSizeT (serializeDetectionsToJson detections).length)).result, e] ∧
        (e = Event.send s.fd (serializeDetectionsToJson detections).length
              (send (send s (bytesOfSizeT (serializeDetectionsToJson detections).length)).sock
                (serializeDetectionsToJson detections)).result ∨
          e = Event.sigpipe s.fd (serializeDetectionsToJson detections).length)) ∧
    ((send s (bytesOfSizeT (serializeDetectionsToJson detections).length)).signal = false →
      (send (send s (bytesOfSizeT (serializeDetectionsToJson detections).length)).sock
        (serializeDetectionsToJson detections)).signal = false →
      (sendDetectionsToSocket serializeDetectionsToJson s detections).terminated = false ∧
      (sendDetectionsToSocket serializeDetectionsToJson s detections).trace =
        [Event.send s.fd 8
            (send s (bytesOfSizeT (serializeDetectionsToJson detections).length)).result,
          Event.send s.fd (serializeDetectionsToJson detections).length
            (send (send s (bytesOfSizeT (serializeDetectionsToJson detections).length)).sock
              (serializeDetectionsToJson detections)).result]) := by
  refine ⟨?_, ?_, ?_⟩
  · intro m hm
    rcases sendDetections_cases serializeDetectionsToJson s detections with
      ⟨_, h⟩ | ⟨_, r1, h⟩ | ⟨_, r1, r2, h⟩ <;>
    · rw [h] at hm
      simp at hm
  · intro h1
    by_cases h2 : (send (send s (bytesOfSizeT
        (serializeDetectionsToJson detections).length)).sock
        (serializeDetectionsToJson detections)).signal = true
    · exact ⟨_, by simp [sendDetectionsToSocket, h1, h2], Or.inr rfl⟩
    · exact ⟨_, by simp [sendDetectionsToSocket, h1, h2], Or.inl rfl⟩
  · intro h1 h2
    simp [sendDetectionsToSocket, h1, h2]

/-! ## One iteration of the accept loop -/

/-- The steps of one iteration, in order: the receive, the three pipeline
calls, the steps of `sendDetectionsToSocket` and, unless the process ended
there, the `close`. -/
theorem serveClient_trace {Mat Tensor Output Batch : Type}
    (c : Collaborators Mat Tensor Output Batch) (bufs : Buffers Tensor Output)
    (a : Accepted) :
    (serveClient c bufs a).trace =
      (receiveImageFromSocket c.imdecode a.stack a.sock c.emptyMat).trace ++
        ([Event.call Call.cuda_preprocess, Event.call Call.infer, Event.call Call.batch_nms]
          ++ ((sendDetectionsToSocket c.serializeDetectionsToJson
                (receiveImageFromSocket c.imdecode a.stack a.sock c.emptyMat).sock
                (c.batch_nms (c.infer (c.cuda_preprocess
                  (receiveImageFromSocket c.imdecode a.stack a.sock c.emptyMat).image)))).trace
              ++ (if (serveClient c bufs a).terminated then []
                  else [Event.close a.sock.fd]))) := by
  simp [serveClient]

/-- One turn of the accept loop after a successful `accept`: the steps of the
iteration and, unless the process ended in it, the rest of the loop. -/
theorem acceptLoop_cons {Mat Tensor Output Batch : Type}
    (c : Collaborators Mat Tensor Output Batch) (serverSocket : Int) (a : Accepted)
    (clients : List Accepted) (bufs : Buffers Tensor Output) (hfd : a.sock.fd ≠ -1) :
    (acceptLoop c serverSocket (a :: clients) bufs).trace =
      Event.accept a.sock.fd :: Event.log Msg.clientConnected ::
        ((serveClient c bufs a).trace ++
          (if (serveClient c bufs a).terminated then []
            else (acceptLoop c serverSocket clients (serveClient c bufs a).bufs).trace)) ∧
    (acceptLoop c serverSocket (a :: clients) bufs).killed =
      ((serveClient c bufs a).terminated ||
        (acceptLoop c serverSocket clients (serveClient c bufs a).bufs).killed) := by
  by_cases ht : (serveClient c bufs a).terminated = true
  · simp [acceptLoop, hfd, ht]
  · simp [acceptLoop, hfd, ht]

/-- One turn of the accept loop in which both `send` calls return: the
receive, the three pipeline calls, the two `send` calls on the same
descriptor, the `close`, and then the rest of the loop. -/
theorem acceptLoop_cons_returned {Mat Tensor Output Batch : Type}
    (c : Collaborators Mat Tensor Output Batch) (serverSocket : Int) (a : Accepted)
    (clients : List Accepted) (bufs : Buffers Tensor Output) (hfd : a.sock.fd ≠ -1)
    (hret : (serveClient c bufs a).terminated = false) :
    ∃ sends : List Event,
      (∀ e ∈ sends, ∃ len r, e = Event.send a.sock.fd len r) ∧ sends.length = 2 ∧
      (acceptLoop c serverSocket (a :: clients) bufs).trace =
        Event.accept a.sock.fd :: Event.log Msg.clientConnected ::
          ((receiveImageFromSocket c.imdecode a.stack a.sock c.emptyMat).trace
            ++ [Event.call Call.cuda_preprocess, Event.call Call.infer,
                Event.call Call.batch_nms]
            ++ sends ++ [Event.close a.sock.fd]
            ++ (acceptLoop c serverSocket clients (serveClient c bufs a).bufs).trace) := by
  have hfdr := (receive_sock c.imdecode a.stack a.sock c.emptyMat).1
  have htr := (acceptLoop_cons c serverSocket a clients bufs hfd).1
  rw [serveClient_trace, hret] at htr
  have hterm : (sendDetectionsToSocket c.serializeDetectionsToJson
      (receiveImageFromSocket c.imdecode a.stack a.sock c.emptyMat).sock
      (c.batch_nms (c.infer (c.cuda_preprocess
        (receiveImageFromSocket c.imdecode a.stack a.sock c.emptyMat).image)))).terminated
      = false := hret
  rcases sendDetections_cases c.serializeDetectionsToJson
      (receiveImageFromSocket c.imdecode a.stack a.sock c.emptyMat).sock
      (c.batch_nms (c.infer (c.cuda_preprocess
        (receiveImageFromSocket c.imdecode a.stack a.sock c.emptyMat).image))) with
    ⟨h, _⟩ | ⟨h, _⟩ | ⟨_, r1, r2, h⟩
  · rw [hterm] at h; cases h
  · rw [hterm] at h; cases h
  · rw [hfdr] at h
    refine ⟨[Event.send a.sock.fd 8 r1, Event.send a.sock.fd (c.serializeDetectionsToJson
      (c.batch_nms (c.infer (c.cuda_preprocess
        (receiveImageFromSocket c.imdecode a.stack a.sock c.emptyMat).image)))).length r2],
      ?_, rfl, ?_⟩
    · intro e he
      simp only [List.mem_cons, List.mem_singleton, List.not_mem_nil, or_false] at he
      rcases he with rfl | rfl
      · exact ⟨_, _, rfl⟩
      · exact ⟨_, _, rfl⟩
    · rw [htr, h]
      simp

/-- C3, refuted at two concrete connections. First: the client declares 6
bytes, sends 4 and closes, and the first `recv` returns only 2 bytes of the
length field; with `0 0` left in the upper bytes of `imageSize` the length is
read as 6, the loop fills the buffer with the rest of the length field and the
4 payload bytes, no short read is seen, and the misframed buffer goes to
`imdecode`, whose result overwrites the image. Second: the client declares 3
bytes, sends 2 and closes; the short read is seen, but the second `send` of the
response raises SIGPIPE, so the process ends with the connection not closed
and the next client never accepted. -/
theorem short_read_claim_fails :
    ((receiveImageFromSocket demo.imdecode [9, 9, 0, 0]
        ⟨5, [6, 0, 0, 0, 66, 77, 1, 2], [2], [], []⟩ [1]).trace =
      [Event.recvSize 5 2, Event.log (Msg.receivedSize 6), Event.alloc 6,
        Event.recvData 5 0 6 6, Event.log Msg.receivedData,
        Event.imdecode [0, 0, 66, 77, 1, 2]] ∧
     (receiveImageFromSocket demo.imdecode [9, 9, 0, 0]
        ⟨5, [6, 0, 0, 0, 66, 77, 1, 2], [2], [], []⟩ [1]).image = []) ∧
    ((acceptLoop demo 3
        [⟨⟨5, [3, 0, 0, 0, 66, 77], [], [], [SendStep.accept 8, SendStep.sigpipe]⟩,
            [9, 9, 9, 9]⟩,
          ⟨⟨6, [], [], [], []⟩, [9, 9, 9, 9]⟩] ⟨[], [], []⟩).trace =
      [Event.accept 5, Event.log Msg.clientConnected,
        Event.recvSize 5 4, Event.log (Msg.receivedSize 3), Event.alloc 3,
        Event.recvData 5 0 3 2, Event.recvData 5 2 1 0, Event.log Msg.errorReceivingData,
        Event.call Call.cuda_preprocess, Event.call Call.infer, Event.call Call.batch_nms,
        Event.send 5 8 8, Event.sigpipe 5 0] ∧
     (acceptLoop demo 3
        [⟨⟨5, [3, 0, 0, 0, 66, 77], [], [], [SendStep.accept 8, SendStep.sigpipe]⟩,
            [9, 9, 9, 9]⟩,
          ⟨⟨6, [], [], [], []⟩, [9, 9, 9, 9]⟩] ⟨[], [], []⟩).killed = true) := by
  decide

/-- C3 as amended. For every declared length `N > 0` whose 4-byte field
arrives in one `recv` and every `K < N`: when the transport delivers `K`
payload bytes (in any positive chunks) and the next `recv` returns `0` or a
negative value, `receiveImageFromSocket` stops there (its reads add up to
exactly `K` bytes, the failing `recv` is its last call, the bytes behind stay
in the stream), never calls `imdecode`, and leaves the image unchanged; the
accept loop then runs the three pipeline calls and the two `send` calls and,
when both `send` calls return, goes on to `close` that client socket and to
the next `accept`. -/
theorem short_read_detected {Mat Tensor Output Batch : Type}
    (c : Collaborators Mat Tensor Output Batch) (stack lenBytes delivered rest : List Byte)
    (s : Socket) (k0 : Int) (chunks tailScript : List Int) (N : Nat) (image : Mat)
    (hrx : s.rx = lenBytes ++ (delivered ++ rest))
    (hscript : s.rxScript = k0 :: (chunks ++ tailScript))
    (hlen : lenBytes.length = 4) (hN : int32OfBytes lenBytes = (N : Int))
    (hK : delivered.length < N) (hk0 : 4 ≤ k0) (hchunks : ∀ k ∈ chunks, 0 < k)
    (hsum : chunks.sum = (delivered.length : Int))
    (hfail : (recv { s with rx := rest, rxScript := tailScript }
      (N - delivered.length)).result ≤ 0)
    (hfd : s.fd ≠ -1) :
    (∃ (reads : List Event) (r : Int), r ≤ 0 ∧
      (receiveImageFromSocket c.imdecode stack s image).trace =
        [Event.recvSize s.fd 4, Event.log (Msg.receivedSize N), Event.alloc N] ++ reads
          ++ [Event.recvData s.fd delivered.length ((N : Int) - delivered.length) r,
              Event.log Msg.errorReceivingData] ∧
      readsUpTo s.fd N delivered.length 0 reads = true) ∧
    (∀ b, Event.imdecode b ∉ (receiveImageFromSocket c.imdecode stack s image).trace) ∧
    (receiveImageFromSocket c.imdecode stack s image).image = image ∧
    (receiveImageFromSocket c.imdecode stack s image).sock.rx = rest ∧
    ∀ (serverSocket : Int) (clients : List Accepted) (bufs : Buffers Tensor Output),
      (serveClient c bufs ⟨s, stack⟩).terminated = false →
      ∃ sends : List Event,
        (∀ e ∈ sends, ∃ len r, e = Event.send s.fd len r) ∧ sends.length = 2 ∧
        (acceptLoop c serverSocket (⟨s, stack⟩ :: clients) bufs).trace =
          Event.accept s.fd :: Event.log Msg.clientConnected ::
            ((receiveImageFromSocket c.imdecode stack s c.emptyMat).trace
              ++ [Event.call Call.cuda_preprocess, Event.call Call.infer,
                  Event.call Call.batch_nms]
              ++ sends ++ [Event.close s.fd]
              ++ (acceptLoop c serverSocket clients
                    (serveClient c bufs ⟨s, stack⟩).bufs).trace) := by
  obtain ⟨fd, rx, sc, tx, ts⟩ := s
  simp only at hrx hscript hfail hfd
  subst hrx hscript
  have hloop := recvLoop_short N chunks N 0 delivered.length
    ⟨fd, delivered ++ rest, chunks ++ tailScript, tx, ts⟩ (List.replicate N 0)
    delivered rest tailScript hchunks hsum (by omega) hK rfl rfl (by omega) hfail
  obtain ⟨h1, h2, _, reads, h4, h5, _⟩ := hloop
  simp only [Nat.cast_zero] at h1 h2 h4 h5
  have hsz : ¬ ((N : Int) ≤ 0) := by omega
  have hne : ¬ ((4 : Int) = -1) := by decide
  have htrace : ∀ img : Mat,
      (receiveImageFromSocket c.imdecode stack
        ⟨fd, lenBytes ++ (delivered ++ rest), k0 :: (chunks ++ tailScript), tx, ts⟩ img).trace =
        [Event.recvSize fd 4, Event.log (Msg.receivedSize N), Event.alloc N] ++ reads
          ++ [Event.recvData fd delivered.length ((N : Int) - delivered.length)
                (recv ⟨fd, rest, tailScript, tx, ts⟩ (N - delivered.length)).result,
              Event.log Msg.errorReceivingData] := by
    intro img
    simp only [receiveImageFromSocket, recv_size_whole fd k0 lenBytes (delivered ++ rest)
      (chunks ++ tailScript) tx ts hlen hk0, int32OfBytes_overlay lenBytes stack hlen, hN,
      hsz, hne, if_false, Int.toNat_natCast]
    simp [h1, h4]
  refine ⟨⟨reads, _, hfail, htrace image, h5⟩, ?_, ?_, ?_, ?_⟩
  · intro b hb
    rw [htrace image] at hb
    simp only [List.mem_append, List.mem_cons, List.mem_singleton, List.not_mem_nil,
      or_false] at hb
    rcases hb with ((h | h | h) | h) | h | h
    · cases h
    · cases h
    · cases h
    · obtain ⟨o, l, r, he⟩ := readsUpTo_mem fd N delivered.length reads 0 h5 _ h
      cases he
    · cases h
    · cases h
  · simp only [receiveImageFromSocket, recv_size_whole fd k0 lenBytes (delivered ++ rest)
      (chunks ++ tailScript) tx ts hlen hk0, int32OfBytes_overlay lenBytes stack hlen, hN,
      hsz, hne, if_false, Int.toNat_natCast]
    simp [h1]
  · simp only [receiveImageFromSocket, recv_size_whole fd k0 lenBytes (delivered ++ rest)
      (chunks ++ tailScript) tx ts hlen hk0, int32OfBytes_overlay lenBytes stack hlen, hN,
      hsz, hne, if_false, Int.toNat_natCast]
    simp [h1, h2]
  · intro serverSocket clients bufs hret
    exact acceptLoop_cons_returned c serverSocket
      ⟨⟨fd, lenBytes ++ (delivered ++ rest), k0 :: (chunks ++ tailScript), tx, ts⟩, stack⟩
      clients bufs hfd hret

/-- C3 as amended, at a concrete connection: 3 bytes declared, 2 delivered,
then end-of-stream; both `send` calls return. -/
theorem short_read_detected_witness :
    (receiveImageFromSocket demo.imdecode [9, 9, 9, 9]
        ⟨5, [3, 0, 0, 0] ++ ([66, 77] ++ []), 4 :: ([2] ++ [0]), [], []⟩ [1]).trace =
      [Event.recvSize 5 4, Event.log (Msg.receivedSize 3), Event.alloc 3,
        Event.recvData 5 0 3 2, Event.recvData 5 2 1 0, Event.log Msg.errorReceivingData] ∧
    (receiveImageFromSocket demo.imdecode [9, 9, 9, 9]
        ⟨5, [3, 0, 0, 0] ++ ([66, 77] ++ []), 4 :: ([2] ++ [0]), [], []⟩ [1]).image = [1] ∧
    (receiveImageFromSocket demo.imdecode [9, 9, 9, 9]
        ⟨5, [3, 0, 0, 0] ++ ([66, 77] ++ []), 4 :: ([2] ++ [0]), [], []⟩ [1]).sock.rx = [] ∧
    ∃ sends : List Event,
      (∀ e ∈ sends, ∃ len r, e = Event.send 5 len r) ∧ sends.length = 2 ∧
      (acceptLoop demo 3
          [⟨⟨5, [3, 0, 0, 0] ++ ([66, 77] ++ []), 4 :: ([2] ++ [0]), [], []⟩, [9, 9, 9, 9]⟩]
          ⟨[], [], []⟩).trace =
        Event.accept 5 :: Event.log Msg.clientConnected ::
          ((receiveImageFromSocket demo.imdecode [9, 9, 9, 9]
              ⟨5, [3, 0, 0, 0] ++ ([66, 77] ++ []), 4 :: ([2] ++ [0]), [], []⟩
              demo.emptyMat).trace
            ++ [Event.call Call.cuda_preprocess, Event.call Call.infer,
                Event.call Call.batch_nms]
            ++ sends ++ [Event.close 5]
            ++ (acceptLoop demo 3 []
                  (serveClient demo ⟨[], [], []⟩
                    ⟨⟨5, [3, 0, 0, 0] ++ ([66, 77] ++ []), 4 :: ([2] ++ [0]), [], []⟩,
                      [9, 9, 9, 9]⟩).bufs).trace) :=
  have h := short_read_detected demo [9, 9, 9, 9] [3, 0, 0, 0] [66, 77] []
    ⟨5, [3, 0, 0, 0] ++ ([66, 77] ++ []), 4 :: ([2] ++ [0]), [], []⟩ 4 [2] [0] 3 [1]
    rfl rfl (by decide) (by decide) (by decide) (by decide) (by decide) (by decide)
    (by decide) (by decide)
  ⟨by decide, h.2.2.1, h.2.2.2.1, h.2.2.2.2 3 [] ⟨[], [], []⟩ (by decide)⟩

/-- When `imdecode` is not among its steps, `receiveImageFromSocket` has left
the caller's image as it was. -/
theorem receive_image_unchanged {Mat : Type} (imdecode : List Byte → Mat)
    (stack : List Byte) (s : Socket) (image : Mat)
    (h : ∀ b, Event.imdecode b ∉ (receiveImageFromSocket imdecode stack s image).trace) :
    (receiveImageFromSocket imdecode stack s image).image = image := by
  unfold receiveImageFromSocket at h ⊢
  simp only at h ⊢
  split
  · rfl
  · split
    · rfl
    · rename_i h1 h2
      simp only [h1, h2, if_false] at h
      split
      · rename_i hexit
        exfalso
        simp only [hexit] at h
        exact h _ (List.mem_append_right _ (List.mem_cons_of_mem _ (List.mem_singleton.mpr rfl)))
      · rfl

/-- C4, refuted at a concrete connection: the client declares length 0, the
receive fails with "Invalid image size", and the loop still runs
`cuda_preprocess`, `infer` and `batch_nms` and sends a response. -/
theorem failed_receive_still_runs_pipeline :
    (acceptLoop demo 3 [⟨⟨5, [0, 0, 0, 0], [], [], []⟩, [9, 9, 9, 9]⟩] ⟨[], [], []⟩).trace =
      [Event.accept 5, Event.log Msg.clientConnected,
        Event.recvSize 5 4, Event.log (Msg.invalidSize 0),
        Event.call Call.cuda_preprocess, Event.call Call.infer, Event.call Call.batch_nms,
        Event.send 5 8 8, Event.send 5 0 0, Event.close 5] := by
  decide

/-- C4 as amended. For every accepted connection, whether or not receiving or
decoding succeeded, the loop runs `cuda_preprocess`, `infer` and `batch_nms`
once each: `cuda_preprocess` on the frame as `receiveImageFromSocket` left it
(the empty `cv::Mat` whenever `imdecode` was not reached), `infer` on what
that wrote, `batch_nms` on the output of `infer`; it then calls
`sendDetectionsToSocket` with that batch on the same connection. When neither
`send` raises SIGPIPE it closes the connection and continues with the next
`accept`; when one does, the run ends inside that `send`. -/
theorem pipeline_runs_for_every_connection {Mat Tensor Output Batch : Type}
    (c : Collaborators Mat Tensor Output Batch) (serverSocket : Int) (a : Accepted)
    (clients : List Accepted) (bufs : Buffers Tensor Output) (hfd : a.sock.fd ≠ -1) :
    (acceptLoop c serverSocket (a :: clients) bufs).trace =
      Event.accept a.sock.fd :: Event.log Msg.clientConnected ::
        ((receiveImageFromSocket c.imdecode a.stack a.sock c.emptyMat).trace
          ++ [Event.call Call.cuda_preprocess, Event.call Call.infer,
              Event.call Call.batch_nms]
          ++ (sendDetectionsToSocket c.serializeDetectionsToJson
                (receiveImageFromSocket c.imdecode a.stack a.sock c.emptyMat).sock
                (c.batch_nms (c.infer (c.cuda_preprocess
                  (receiveImageFromSocket c.imdecode a.stack a.sock c.emptyMat).image)))).trace
          ++ (if (sendDetectionsToSocket c.serializeDetectionsToJson
                (receiveImageFromSocket c.imdecode a.stack a.sock c.emptyMat).sock
                (c.batch_nms (c.infer (c.cuda_preprocess
                  (receiveImageFromSocket c.imdecode a.stack a.sock
                    c.emptyMat).image)))).terminated
              then []
              else Event.close a.sock.fd ::
                (acceptLoop c serverSocket clients
                  ⟨c.cuda_preprocess
                      (receiveImageFromSocket c.imdecode a.stack a.sock c.emptyMat).image,
                    c.infer (c.cuda_preprocess
                      (receiveImageFromSocket c.imdecode a.stack a.sock c.emptyMat).image),
                    c.infer (c.cuda_preprocess
                      (receiveImageFromSocket c.imdecode a.stack a.sock
                        c.emptyMat).image)⟩).trace)) ∧
    (acceptLoop c serverSocket (a :: clients) bufs).killed =
      ((sendDetectionsToSocket c.serializeDetectionsToJson
          (receiveImageFromSocket c.imdecode a.stack a.sock c.emptyMat).sock
          (c.batch_nms (c.infer (c.cuda_preprocess
            (receiveImageFromSocket c.imdecode a.stack a.sock c.emptyMat).image)))).terminated
        || (acceptLoop c serverSocket clients (serveClient c bufs a).bufs).killed) ∧
    (serveClient c bufs a).sock =
      (sendDetectionsToSocket c.serializeDetectionsToJson
        (receiveImageFromSocket c.imdecode a.stack a.sock c.emptyMat).sock
        (c.batch_nms (c.infer (c.cuda_preprocess
          (receiveImageFromSocket c.imdecode a.stack a.sock c.emptyMat).image)))).sock ∧
    ((∀ b, Event.imdecode b ∉
        (receiveImageFromSocket c.imdecode a.stack a.sock c.emptyMat).trace) →
      (receiveImageFromSocket c.imdecode a.stack a.sock c.emptyMat).image = c.emptyMat) := by
  obtain ⟨htr, hk⟩ := acceptLoop_cons c serverSocket a clients bufs hfd
  refine ⟨?_, hk, rfl, receive_image_unchanged c.imdecode a.stack a.sock c.emptyMat⟩
  rw [htr, serveClient_trace]
  have hterm : (serveClient c bufs a).terminated =
      (sendDetectionsToSocket c.serializeDetectionsToJson
        (receiveImageFromSocket c.imdecode a.stack a.sock c.emptyMat).sock
        (c.batch_nms (c.infer (c.cuda_preprocess
          (receiveImageFromSocket c.imdecode a.stack a.sock c.emptyMat).image)))).terminated :=
    rfl
  have hbufs : (serveClient c bufs a).bufs =
      ⟨c.cuda_preprocess
          (receiveImageFromSocket c.imdecode a.stack a.sock c.emptyMat).image,
        c.infer (c.cuda_preprocess
          (receiveImageFromSocket c.imdecode a.stack a.sock c.emptyMat).image),
        c.infer (c.cuda_preprocess
          (receiveImageFromSocket c.imdecode a.stack a.sock c.emptyMat).image)⟩ := rfl
  rw [hterm, hbufs]
  by_cases ht : (sendDetectionsToSocket c.serializeDetectionsToJson
        (receiveImageFromSocket c.imdecode a.stack a.sock c.emptyMat).sock
        (c.batch_nms (c.infer (c.cuda_preprocess
          (receiveImageFromSocket c.imdecode a.stack a.sock c.emptyMat).image)))).terminated
      = true
  · simp [ht]
  · simp [ht]

/-- C4 as amended, at two connections in a row: the payload of the first is
cut short and its response is sent in full, the second declares a negative
length and its first `send` raises SIGPIPE. -/
theorem pipeline_runs_for_every_connection_witness :
    (acceptLoop demo 3
        [⟨⟨5, [3, 0, 0, 0, 66, 77], [4, 2, 0], [], []⟩, [9, 9, 9, 9]⟩,
          ⟨⟨6, [0, 0, 0, 128], [], [], [SendStep.sigpipe]⟩, [9, 9, 9, 9]⟩,
          ⟨⟨7, [], [], [], []⟩, [9, 9, 9, 9]⟩] ⟨[1], [2], [3]⟩).trace =
      [Event.accept 5, Event.log Msg.clientConnected,
        Event.recvSize 5 4, Event.log (Msg.receivedSize 3), Event.alloc 3,
        Event.recvData 5 0 3 2, Event.recvData 5 2 1 0, Event.log Msg.errorReceivingData,
        Event.call Call.cuda_preprocess, Event.call Call.infer, Event.call Call.batch_nms,
        Event.send 5 8 8, Event.send 5 0 0, Event.close 5,
        Event.accept 6, Event.log Msg.clientConnected,
        Event.recvSize 6 4, Event.log (Msg.invalidSize (-2147483648)),
        Event.call Call.cuda_preprocess, Event.call Call.infer, Event.call Call.batch_nms,
        Event.sigpipe 6 8] :=
  (pipeline_runs_for_every_connection demo 3
    ⟨⟨5, [3, 0, 0, 0, 66, 77], [4, 2, 0], [], []⟩, [9, 9, 9, 9]⟩
    [⟨⟨6, [0, 0, 0, 128], [], [], [SendStep.sigpipe]⟩, [9, 9, 9, 9]⟩,
      ⟨⟨7, [], [], [], []⟩, [9, 9, 9, 9]⟩] ⟨[1], [2], [3]⟩ (by decide)).1.trans (by decide)

/-! ## The length field read short -/

/-- C10, the code at a failing connection: the peer closes without sending
anything, so the first `recv` returns 0 and stores nothing, and the storage of
`imageSize` still holds what was there before (here the value 16). The
function does not fail: it takes 16 as the declared length, allocates a
16-byte buffer and issues a `recv` for 16 payload bytes. -/
theorem unread_length_used :
    (receiveImageFromSocket demo.imdecode [16, 0, 0, 0] ⟨5, [], [], [], []⟩ []).trace =
      [Event.recvSize 5 0, Event.log (Msg.receivedSize 16), Event.alloc 16,
        Event.recvData 5 0 16 0, Event.log Msg.errorReceivingData] := by
  decide

theorem serialFrom_append (serverSocket : Int) :
    ∀ (xs ys : List Event) (p : Phase),
      serialFrom serverSocket p (xs ++ ys) =
        (serialFrom serverSocket p xs).bind (fun q => serialFrom serverSocket q ys) := by
  intro xs
  induction xs with
  | nil => intro ys p; rfl
  | cons x xs ih =>
    intro ys p
    simp only [List.cons_append, serialFrom]
    cases serialStep serverSocket p x with
    | none => rfl
    | some q => exact ih ys q

/-- The reads of the loop keep the check in the phase "length field read,
nothing sent". -/
theorem serialFrom_recvLoop (serverSocket imageSize : Int) :
    ∀ (fuel : Nat) (s : Socket) (buffer : List Byte) (totalReceived : Int),
      serialFrom serverSocket (Phase.serving s.fd 1 0)
        (recvLoop imageSize fuel s buffer totalReceived).trace =
          some (Phase.serving s.fd 1 0) := by
  intro fuel
  induction fuel with
  | zero => intro s buffer t; simp [recvLoop, serialFrom]
  | succ fuel ih =>
    intro s buffer t
    unfold recvLoop
    by_cases ht : t < imageSize
    · rw [if_pos ht]
      by_cases hr : (recv s (imageSize - t).toNat).result ≤ 0
      · simp [hr, serialFrom, serialStep]
      · simp only [hr, if_false, serialFrom, serialStep, and_self, if_true]
        have h := ih (recv s (imageSize - t).toNat).sock
          (writeAt buffer t.toNat (recv s (imageSize - t).toNat).bytes)
          (t + (recv s (imageSize - t).toNat).result)
        rw [recv_fd] at h
        exact h
    · simp [ht, serialFrom]

theorem serialFrom_append_of (serverSocket : Int) (xs ys : List Event) (p q : Phase)
    (h : serialFrom serverSocket p xs = some q) :
    serialFrom serverSocket p (xs ++ ys) = serialFrom serverSocket q ys := by
  rw [serialFrom_append, h]; rfl

/-- The steps of `receiveImageFromSocket` are one receive on its socket. -/
theorem serialFrom_receive {Mat : Type} (serverSocket : Int) (imdecode : List Byte → Mat)
    (stack : List Byte) (s : Socket) (image : Mat) :
    serialFrom serverSocket (Phase.serving s.fd 0 0)
      (receiveImageFromSocket imdecode stack s image).trace =
        some (Phase.serving s.fd 1 0) := by
  unfold receiveImageFromSocket
  simp only
  split
  · simp [serialFrom, serialStep]
  · split
    · simp [serialFrom, serialStep]
    · have h := serialFrom_recvLoop serverSocket
        (int32OfBytes (overlay (recv s 4).bytes stack))
        (int32OfBytes (overlay (recv s 4).bytes stack)).toNat (recv s 4).sock
        (List.replicate (int32OfBytes (overlay (recv s 4).bytes stack)).toNat 0) 0
      rw [recv_fd] at h
      generalize (recvLoop (int32OfBytes (overlay (recv s 4).bytes stack))
        (int32OfBytes (overlay (recv s 4).bytes stack)).toNat (recv s 4).sock
        (List.replicate (int32OfBytes (overlay (recv s 4).bytes stack)).toNat 0) 0) = out at h ⊢
      have hstart : ∀ rest : List Event,
          serialFrom serverSocket (Phase.serving s.fd 0 0)
            ([Event.recvSize s.fd (recv s 4).result,
              Event.log (Msg.receivedSize (int32OfBytes (overlay (recv s 4).bytes stack))),
              Event.alloc (int32OfBytes (overlay (recv s 4).bytes stack))] ++ rest) =
          serialFrom serverSocket (Phase.serving s.fd 1 0) rest := by
        intro rest
        simp [serialFrom, serialStep]
      split
      · rw [List.append_assoc, hstart, serialFrom_append_of _ _ _ _ _ h]
        simp [serialFrom, serialStep]
      · rw [hstart, h]

/-- The steps of `sendDetectionsToSocket` are one response on its socket, or
the part of one that ends in SIGPIPE. -/
theorem serialFrom_send {Batch : Type} (serverSocket : Int)
    (serializeDetectionsToJson : Batch → List Byte) (s : Socket) (detections : Batch) :
    serialFrom serverSocket (Phase.serving s.fd 1 0)
      (sendDetectionsToSocket serializeDetectionsToJson s detections).trace =
        some (if (sendDetectionsToSocket serializeDetectionsToJson s detections).terminated
          then Phase.dead s.fd else Phase.serving s.fd 1 2) := by
  unfold sendDetectionsToSocket
  simp only
  split
  · simp [serialFrom, serialStep]
  · split
    · simp [serialFrom, serialStep]
    · simp [serialFrom, serialStep]

/-- The steps of one iteration take the check from "connection accepted" back
to "no connection open", or to "ended by SIGPIPE" when a `send` raised it. -/
theorem serialFrom_serveClient {Mat Tensor Output Batch : Type} (serverSocket : Int)
    (c : Collaborators Mat Tensor Output Batch) (bufs : Buffers Tensor Output)
    (a : Accepted) :
    serialFrom serverSocket (Phase.serving a.sock.fd 0 0) (serveClient c bufs a).trace =
      some (if (serveClient c bufs a).terminated then Phase.dead a.sock.fd
        else Phase.idle) := by
  have hr := serialFrom_receive serverSocket c.imdecode a.stack a.sock c.emptyMat
  have hs := serialFrom_send serverSocket c.serializeDetectionsToJson
    (receiveImageFromSocket c.imdecode a.stack a.sock c.emptyMat).sock
    (c.batch_nms (c.infer (c.cuda_preprocess
      (receiveImageFromSocket c.imdecode a.stack a.sock c.emptyMat).image)))
  rw [(receive_sock c.imdecode a.stack a.sock c.emptyMat).1] at hs
  have hterm : (serveClient c bufs a).terminated =
      (sendDetectionsToSocket c.serializeDetectionsToJson
        (receiveImageFromSocket c.imdecode a.stack a.sock c.emptyMat).sock
        (c.batch_nms (c.infer (c.cuda_preprocess
          (receiveImageFromSocket c.imdecode a.stack a.sock c.emptyMat).image)))).terminated :=
    rfl
  rw [serveClient_trace, serialFrom_append_of _ _ _ _ _ hr]
  have hcalls : serialFrom serverSocket (Phase.serving a.sock.fd 1 0)
      [Event.call Call.cuda_preprocess, Event.call Call.infer, Event.call Call.batch_nms] =
      some (Phase.serving a.sock.fd 1 0) := by
    simp [serialFrom, serialStep]
  rw [serialFrom_append_of _ _ _ _ _ hcalls, serialFrom_append_of _ _ _ _ _ hs, ← hterm]
  by_cases ht : (serveClient c bufs a).terminated = true
  · simp [ht, serialFrom]
  · simp [ht, serialFrom, serialStep]

/-- The accept loop ends with no connection open, unless SIGPIPE ended the
process, and then exactly one is open. -/
theorem serialFrom_acceptLoop {Mat Tensor Output Batch : Type} (serverSocket : Int)
    (c : Collaborators Mat Tensor Output Batch) :
    ∀ (clients : List Accepted) (bufs : Buffers Tensor Output),
      ((acceptLoop c serverSocket clients bufs).killed = false ∧
        (serialFrom serverSocket Phase.idle (acceptLoop c serverSocket clients bufs).trace =
            some Phase.idle ∨
          serialFrom serverSocket Phase.idle (acceptLoop c serverSocket clients bufs).trace =
            some Phase.stopped)) ∨
      ((acceptLoop c serverSocket clients bufs).killed = true ∧
        ∃ fd, serialFrom serverSocket Phase.idle
          (acceptLoop c serverSocket clients bufs).trace = some (Phase.dead fd)) := by
  intro clients
  induction clients with
  | nil => intro bufs; exact Or.inl ⟨rfl, Or.inl rfl⟩
  | cons a rest ih =>
    intro bufs
    by_cases hfd : a.sock.fd = -1
    · left
      refine ⟨by simp [acceptLoop, hfd], Or.inr ?_⟩
      simp [acceptLoop, hfd, serialFrom, serialStep]
    · have hsv := serialFrom_serveClient serverSocket c bufs a
      obtain ⟨htr, hk⟩ := acceptLoop_cons c serverSocket a rest bufs hfd
      have hstep : ∀ rest2 : List Event,
          serialFrom serverSocket Phase.idle
            (Event.accept a.sock.fd :: Event.log Msg.clientConnected :: rest2) =
          serialFrom serverSocket (Phase.serving a.sock.fd 0 0) rest2 := by
        intro rest2
        simp [serialFrom, serialStep, hfd]
      rw [htr, hk, hstep, serialFrom_append_of _ _ _ _ _ hsv]
      by_cases ht : (serveClient c bufs a).terminated = true
      · right
        simp [ht, serialFrom]
      · simp only [Bool.not_eq_true] at ht
        simp only [ht, Bool.false_eq_true, if_false, Bool.false_or]
        exact ih (serveClient c bufs a).bufs

/-- The connection an iteration works on is the one that was accepted. -/
theorem serveClient_fd {Mat Tensor Output Batch : Type}
    (c : Collaborators Mat Tensor Output Batch) (bufs : Buffers Tensor Output)
    (a : Accepted) : (serveClient c bufs a).sock.fd = a.sock.fd := by
  show (sendDetectionsToSocket c.serializeDetectionsToJson _ _).sock.fd = _
  rw [sendDetections_fd]
  exact (receive_sock c.imdecode a.stack a.sock c.emptyMat).1

theorem acceptLoop_served {Mat Tensor Output Batch : Type} (serverSocket : Int)
    (c : Collaborators Mat Tensor Output Batch) :
    ∀ (clients : List Accepted) (bufs : Buffers Tensor Output),
      ∃ rest : List Int, clients.map (fun a => a.sock.fd) =
        (acceptLoop c serverSocket clients bufs).served.map (fun s => s.fd) ++ rest := by
  intro clients
  induction clients with
  | nil => intro bufs; exact ⟨[], rfl⟩
  | cons a tl ih =>
    intro bufs
    by_cases hfd : a.sock.fd = -1
    · exact ⟨(a :: tl).map (fun a => a.sock.fd), by simp [acceptLoop, hfd]⟩
    · by_cases ht : (serveClient c bufs a).terminated = true
      · exact ⟨tl.map (fun a => a.sock.fd), by simp [acceptLoop, hfd, ht, serveClient_fd]⟩
      · obtain ⟨rest, hrest⟩ := ih (serveClient c bufs a).bufs
        refine ⟨rest, ?_⟩
        simp only [Bool.not_eq_true] at ht
        simp only [acceptLoop, hfd, ht, Bool.false_eq_true, if_false, List.map_cons,
          List.cons_append, serveClient_fd]
        rw [hrest]

/-- C7, refuted at a concrete run: the first client closes after a short
payload and the second `send` of the response raises SIGPIPE. The process ends
inside that `send`: the trace fails the one-at-a-time check because the
accepted connection is never closed, and the second client is never accepted. -/
theorem sigpipe_leaves_connection_open :
    serial 3 (main demo ⟨3, 3, 0, 0, ⟨[], [], []⟩,
        [⟨⟨5, [3, 0, 0, 0, 66, 77], [], [], [SendStep.accept 8, SendStep.sigpipe]⟩,
            [9, 9, 9, 9]⟩,
          ⟨⟨6, [], [], [], []⟩, [9, 9, 9, 9]⟩]⟩).trace = false ∧
    Event.close 5 ∉ (main demo ⟨3, 3, 0, 0, ⟨[], [], []⟩,
        [⟨⟨5, [3, 0, 0, 0, 66, 77], [], [], [SendStep.accept 8, SendStep.sigpipe]⟩,
            [9, 9, 9, 9]⟩,
          ⟨⟨6, [], [], [], []⟩, [9, 9, 9, 9]⟩]⟩).trace ∧
    Event.accept 6 ∉ (main demo ⟨3, 3, 0, 0, ⟨[], [], []⟩,
        [⟨⟨5, [3, 0, 0, 0, 66, 77], [], [], [SendStep.accept 8, SendStep.sigpipe]⟩,
            [9, 9, 9, 9]⟩,
          ⟨⟨6, [], [], [], []⟩, [9, 9, 9, 9]⟩]⟩).trace ∧
    (main demo ⟨3, 3, 0, 0, ⟨[], [], []⟩,
        [⟨⟨5, [3, 0, 0, 0, 66, 77], [], [], [SendStep.accept 8, SendStep.sigpipe]⟩,
            [9, 9, 9, 9]⟩,
          ⟨⟨6, [], [], [], []⟩, [9, 9, 9, 9]⟩]⟩).killed = true := by
  decide

/-- C7 as amended. In every run of `main` in which no `send` raises SIGPIPE
the trace passes the one-at-a-time check `serial`: after an `accept` there is
no other `accept` until that client socket is closed; between the two there is
exactly one length-field `recv` and one response (the two `send` calls) on
that descriptor; after the `close` nothing touches a client descriptor before
the next `accept`. In a run that SIGPIPE ends, every step up to and including
the `send` that raised it is allowed by the same check, and the run stops
there with that one connection open. In both cases the connections served
are, in order, an initial part of those accepted. -/
theorem connections_served_one_at_a_time {Mat Tensor Output Batch : Type}
    (c : Collaborators Mat Tensor Output Batch) (env : Env Tensor Output) :
    ((main c env).killed = false → serial env.socketResult (main c env).trace = true) ∧
    ((main c env).killed = true →
      ∃ fd, serialFrom env.socketResult Phase.idle (main c env).trace =
        some (Phase.dead fd)) ∧
    ∃ rest : List Int, env.clients.map (fun a => a.sock.fd) =
      (main c env).served.map (fun s => s.fd) ++ rest := by
  unfold main
  by_cases h1 : env.argc ≠ 3
  · rw [if_pos h1]
    exact ⟨(fun _ => by simp [serial, serialFrom, serialStep]), (fun h => Bool.noConfusion h), _, rfl⟩
  · rw [if_neg h1]
    by_cases h2 : env.socketResult = -1
    · simp only [h2, if_true]
      exact ⟨(fun _ => by simp [serial, serialFrom, serialStep, startup]),
        (fun h => Bool.noConfusion h), _, rfl⟩
    · by_cases h3 : env.bindResult = -1
      · simp only [h2, h3, if_true, if_false]
        exact ⟨(fun _ => by simp [serial, serialFrom, serialStep, startup]),
          (fun h => Bool.noConfusion h), _, rfl⟩
      · by_cases h4 : env.listenResult = -1
        · simp only [h2, h3, h4, if_true, if_false]
          exact ⟨(fun _ => by simp [serial, serialFrom, serialStep, startup]),
            (fun h => Bool.noConfusion h), _, rfl⟩
        · simp only [h2, h3, h4, if_false]
          have hpre : serialFrom env.socketResult Phase.idle
              (startup ++ [Event.socket env.socketResult, Event.bind env.bindResult,
                Event.listen env.listenResult, Event.log Msg.waiting]) = some Phase.idle := by
            simp [serialFrom, serialStep, startup]
          refine ⟨?_, ?_, acceptLoop_served env.socketResult c env.clients env.bufs⟩
          · intro hk
            unfold serial
            rw [serialFrom_append_of _ _ _ _ _ hpre]
            rcases serialFrom_acceptLoop env.socketResult c env.clients env.bufs with
              ⟨_, h | h⟩ | ⟨hk2, _⟩
            · rw [h]
            · rw [h]
            · rw [hk] at hk2; cases hk2
          · intro hk
            rw [serialFrom_append_of _ _ _ _ _ hpre]
            rcases serialFrom_acceptLoop env.socketResult c env.clients env.bufs with
              ⟨hk2, _⟩ | ⟨_, h⟩
            · rw [hk] at hk2; cases hk2
            · exact h

/-! ## How `main` ends -/

theorem recvLoop_no_accept (imageSize : Int) :
    ∀ (fuel : Nat) (s : Socket) (buffer : List Byte) (totalReceived : Int) (r : Int),
      Event.accept r ∉ (recvLoop imageSize fuel s buffer totalReceived).trace := by
  intro fuel
  induction fuel with
  | zero => intro s buffer t r; simp [recvLoop]
  | succ fuel ih =>
    intro s buffer t r
    unfold recvLoop
    by_cases ht : t < imageSize
    · rw [if_pos ht]
      by_cases hr : (recv s (imageSize - t).toNat).result ≤ 0
      · simp [hr]
      · simp only [hr, if_false, List.mem_cons, not_or]
        exact ⟨by simp, ih _ _ _ r⟩
    · simp [ht]

/-- No step of an iteration is an `accept`. -/
theorem serveClient_no_accept {Mat Tensor Output Batch : Type}
    (c : Collaborators Mat Tensor Output Batch) (bufs : Buffers Tensor Output)
    (a : Accepted) (r : Int) : Event.accept r ∉ (serveClient c bufs a).trace := by
  have hrcv : Event.accept r ∉
      (receiveImageFromSocket c.imdecode a.stack a.sock c.emptyMat).trace := by
    unfold receiveImageFromSocket
    simp only
    split
    · simp
    · split
      · simp
      · have hl := recvLoop_no_accept (int32OfBytes (overlay (recv a.sock 4).bytes a.stack))
          (int32OfBytes (overlay (recv a.sock 4).bytes a.stack)).toNat (recv a.sock 4).sock
          (List.replicate (int32OfBytes (overlay (recv a.sock 4).bytes a.stack)).toNat 0) 0 r
        split <;> simp [hl]
  have hsnd : Event.accept r ∉
      (sendDetectionsToSocket c.serializeDetectionsToJson
        (receiveImageFromSocket c.imdecode a.stack a.sock c.emptyMat).sock
        (c.batch_nms (c.infer (c.cuda_preprocess
          (receiveImageFromSocket c.imdecode a.stack a.sock c.emptyMat).image)))).trace := by
    rcases sendDetections_cases c.serializeDetectionsToJson
        (receiveImageFromSocket c.imdecode a.stack a.sock c.emptyMat).sock
        (c.batch_nms (c.infer (c.cuda_preprocess
          (receiveImageFromSocket c.imdecode a.stack a.sock c.emptyMat).image))) with
      ⟨_, h⟩ | ⟨_, r1, h⟩ | ⟨_, r1, r2, h⟩ <;>
    · rw [h]; simp
  rw [serveClient_trace]
  intro hmem
  simp only [List.mem_append, List.mem_cons, List.mem_singleton, List.not_mem_nil,
    or_false] at hmem
  rcases hmem with h | (h | h | h) | h | h
  · exact hrcv h
  · cases h
  · cases h
  · cases h
  · exact hsnd h
  · split at h
    · cases h
    · simp at h

theorem acceptLoop_exit {Mat Tensor Output Batch : Type} (serverSocket : Int)
    (c : Collaborators Mat Tensor Output Batch) :
    ∀ (clients : List Accepted) (bufs : Buffers Tensor Output),
      ((∀ a ∈ clients, a.sock.fd ≠ -1) →
        (acceptLoop c serverSocket clients bufs).exit = none) ∧
      ((acceptLoop c serverSocket clients bufs).killed = true →
        (acceptLoop c serverSocket clients bufs).exit = none) ∧
      ((acceptLoop c serverSocket clients bufs).exit = none ∨
        (acceptLoop c serverSocket clients bufs).exit = some (-1)) ∧
      (((∃ a ∈ clients, a.sock.fd = -1) ∧
          (acceptLoop c serverSocket clients bufs).killed = false ∨
        Event.accept (-1) ∈ (acceptLoop c serverSocket clients bufs).trace) →
        (acceptLoop c serverSocket clients bufs).exit = some (-1) ∧
        ∃ before : List Event, (acceptLoop c serverSocket clients bufs).trace =
          before ++ [Event.accept (-1), Event.log Msg.errorAccepting,
            Event.close serverSocket]) := by
  intro clients
  induction clients with
  | nil =>
    intro bufs
    refine ⟨fun _ => rfl, fun _ => rfl, Or.inl rfl, ?_⟩
    rintro (⟨⟨a, ha, _⟩, _⟩ | h)
    · cases ha
    · simp [acceptLoop] at h
  | cons a tl ih =>
    intro bufs
    by_cases hfd : a.sock.fd = -1
    · have hexit : (acceptLoop c serverSocket (a :: tl) bufs).exit = some (-1) := by
        simp [acceptLoop, hfd]
      have hkill : (acceptLoop c serverSocket (a :: tl) bufs).killed = false := by
        simp [acceptLoop, hfd]
      have htrace : (acceptLoop c serverSocket (a :: tl) bufs).trace =
          [] ++ [Event.accept (-1), Event.log Msg.errorAccepting,
            Event.close serverSocket] := by
        simp [acceptLoop, hfd]
      refine ⟨fun h => absurd hfd (h a (List.mem_cons_self _ _)), ?_, Or.inr hexit,
        fun _ => ⟨hexit, [], htrace⟩⟩
      intro hk
      rw [hkill] at hk
      cases hk
    · obtain ⟨ih1, ih2, ih3, ih4⟩ := ih (serveClient c bufs a).bufs
      obtain ⟨htr, hk⟩ := acceptLoop_cons c serverSocket a tl bufs hfd
      by_cases ht : (serveClient c bufs a).terminated = true
      · have hexit : (acceptLoop c serverSocket (a :: tl) bufs).exit = none := by
          simp [acceptLoop, hfd, ht]
        have hkill : (acceptLoop c serverSocket (a :: tl) bufs).killed = true := by
          rw [hk, ht]; rfl
        refine ⟨fun _ => hexit, fun _ => hexit, Or.inl hexit, ?_⟩
        rintro (⟨_, hk2⟩ | hmem)
        · rw [hkill] at hk2; cases hk2
        · exfalso
          rw [htr] at hmem
          simp only [ht, if_true, List.append_nil, List.mem_cons] at hmem
          rcases hmem with h | h | h
          · injection h with h; exact hfd h.symm
          · cases h
          · exact serveClient_no_accept c bufs a (-1) h
      · simp only [Bool.not_eq_true] at ht
        have hexit : (acceptLoop c serverSocket (a :: tl) bufs).exit =
            (acceptLoop c serverSocket tl (serveClient c bufs a).bufs).exit := by
          simp [acceptLoop, hfd, ht]
        have hkill : (acceptLoop c serverSocket (a :: tl) bufs).killed =
            (acceptLoop c serverSocket tl (serveClient c bufs a).bufs).killed := by
          rw [hk, ht]; rfl
        rw [hexit, hkill]
        refine ⟨fun h => ih1 (fun b hb => h b (List.mem_cons_of_mem _ hb)), ih2, ih3, ?_⟩
        intro h
        have hrest : (∃ b ∈ tl, b.sock.fd = -1) ∧
            (acceptLoop c serverSocket tl (serveClient c bufs a).bufs).killed = false ∨
            Event.accept (-1) ∈
              (acceptLoop c serverSocket tl (serveClient c bufs a).bufs).trace := by
          rcases h with ⟨⟨b, hb, hbfd⟩, hk2⟩ | hmem
          · left
            refine ⟨⟨b, ?_, hbfd⟩, hk2⟩
            rcases List.mem_cons.mp hb with rfl | hm
            · exact absurd hbfd hfd
            · exact hm
          · right
            rw [htr] at hmem
            simp only [ht, Bool.false_eq_true, if_false, List.mem_cons, List.mem_append]
              at hmem
            rcases hmem with h | h | h | h
            · injection h with h; exact absurd h.symm hfd
            · cases h
            · exact absurd h (serveClient_no_accept c bufs a (-1))
            · exact h
        obtain ⟨he, before, hb⟩ := ih4 hrest
        refine ⟨he, Event.accept a.sock.fd :: Event.log Msg.clientConnected ::
          ((serveClient c bufs a).trace ++ before), ?_⟩
        rw [htr, hb]
        simp [ht]

/-- C9. Every run of `main` that returns returns `-1`, and none returns `0`:
`main` returns `-1` when `argc` is not 3, when `socket` fails, when `bind`
fails, when `listen` fails and when an `accept` fails (an `accept` the run
reaches: the step is in the trace, or an outcome `-1` is in the list and
SIGPIPE has not ended the process before), in the last three cases with
`close(serverSocket)` as its last step; when every `accept` succeeds `main`
does not return, whatever the clients do on their connections; and a run that
SIGPIPE ends does not return from `main` either. -/
theorem main_exit_code {Mat Tensor Output Batch : Type}
    (c : Collaborators Mat Tensor Output Batch) (env : Env Tensor Output) :
    (main c env).exit ≠ some 0 ∧
    (∀ r, (main c env).exit = some r → r = -1) ∧
    (env.argc ≠ 3 → (main c env).exit = some (-1)) ∧
    (env.argc = 3 → env.socketResult = -1 → (main c env).exit = some (-1)) ∧
    (env.argc = 3 → env.socketResult ≠ -1 → env.bindResult = -1 →
      (main c env).exit = some (-1) ∧
      ∃ before, (main c env).trace = before ++ [Event.close env.socketResult]) ∧
    (env.argc = 3 → env.socketResult ≠ -1 → env.bindResult ≠ -1 → env.listenResult = -1 →
      (main c env).exit = some (-1) ∧
      ∃ before, (main c env).trace = before ++ [Event.close env.socketResult]) ∧
    (env.argc = 3 → env.socketResult ≠ -1 → env.bindResult ≠ -1 → env.listenResult ≠ -1 →
      ((∃ a ∈ env.clients, a.sock.fd = -1) ∧ (main c env).killed = false ∨
        Event.accept (-1) ∈ (main c env).trace) →
      (main c env).exit = some (-1) ∧
      ∃ before, (main c env).trace = before ++ [Event.close env.socketResult]) ∧
    (env.argc = 3 → env.socketResult ≠ -1 → env.bindResult ≠ -1 → env.listenResult ≠ -1 →
      (∀ a ∈ env.clients, a.sock.fd ≠ -1) → (main c env).exit = none) ∧
    ((main c env).killed = true → (main c env).exit = none) := by
  obtain ⟨hnone, hkilled, hcases, hsome⟩ :=
    acceptLoop_exit env.socketResult c env.clients env.bufs
  have hexit : (main c env).exit = none ∨ (main c env).exit = some (-1) := by
    unfold main
    by_cases h1 : env.argc ≠ 3
    · rw [if_pos h1]; exact Or.inr rfl
    · rw [if_neg h1]
      by_cases h2 : env.socketResult = -1
      · simp [h2]
      · by_cases h3 : env.bindResult = -1
        · simp [h2, h3]
        · by_cases h4 : env.listenResult = -1
          · simp [h2, h3, h4]
          · simp only [h2, h3, h4, if_false]
            exact hcases
  refine ⟨?_, ?_, ?_, ?_, ?_, ?_, ?_, ?_, ?_⟩
  · rcases hexit with h | h <;> rw [h] <;> simp
  · intro r hr
    rcases hexit with h | h
    · rw [h] at hr; cases hr
    · rw [h] at hr; injection hr with hr; exact hr.symm
  · intro h1
    simp [main, h1]
  · intro h1 h2
    simp [main, h1, h2]
  · intro h1 h2 h3
    refine ⟨by simp [main, h1, h2, h3], startup ++ [Event.socket env.socketResult,
      Event.bind env.bindResult, Event.log Msg.errorBinding], ?_⟩
    simp [main, h1, h2, h3]
  · intro h1 h2 h3 h4
    refine ⟨by simp [main, h1, h2, h3, h4], startup ++ [Event.socket env.socketResult,
      Event.bind env.bindResult, Event.listen env.listenResult,
      Event.log Msg.errorListening], ?_⟩
    simp [main, h1, h2, h3, h4]
  · intro h1 h2 h3 h4 h5
    have hloop : (∃ a ∈ env.clients, a.sock.fd = -1) ∧
        (acceptLoop c env.socketResult env.clients env.bufs).killed = false ∨
        Event.accept (-1) ∈ (acceptLoop c env.socketResult env.clients env.bufs).trace := by
      rcases h5 with ⟨hex, hk⟩ | hmem
      · left
        refine ⟨hex, ?_⟩
        simpa [main, h1, h2, h3, h4] using hk
      · right
        simpa [main, h1, h2, h3, h4, startup] using hmem
    obtain ⟨he, before, ht⟩ := hsome hloop
    refine ⟨by simp [main, h1, h2, h3, h4, he], startup ++ [Event.socket env.socketResult,
      Event.bind env.bindResult, Event.listen env.listenResult, Event.log Msg.waiting]
      ++ (before ++ [Event.accept (-1), Event.log Msg.errorAccepting]), ?_⟩
    simp [main, h1, h2, h3, h4, ht]
  · intro h1 h2 h3 h4 h5
    simp [main, h1, h2, h3, h4, hnone h5]
  · intro hk
    unfold main at hk ⊢
    by_cases h1 : env.argc ≠ 3
    · rw [if_pos h1] at hk; cases hk
    · rw [if_neg h1] at hk ⊢
      by_cases h2 : env.socketResult = -1
      · simp [h2] at hk
      · by_cases h3 : env.bindResult = -1
        · simp [h2, h3] at hk
        · by_cases h4 : env.listenResult = -1
          · simp [h2, h3, h4] at hk
          · simp only [h2, h3, h4, if_false] at hk ⊢
            exact hkilled hk

/-! ## What a response depends on -/

theorem recv_bytes_length (s : Socket) (len : Nat) (h : 0 ≤ (recv s len).result) :
    (recv s len).bytes.length = (recv s len).result.toNat := by
  cases hsc : s.rxScript with
  | nil =>
    simp only [recv, hsc, List.length_take, Int.toNat_natCast]
    omega
  | cons k ks =>
    simp only [recv, hsc] at h ⊢
    by_cases hk : k < 0
    · simp [hk] at h
    · simp only [hk, if_false, List.length_take, Int.toNat_natCast]
      omega

/-- When the first `recv` fails with `-1` or stores all four bytes of the
length field, nothing of what `receiveImageFromSocket` does depends on what
the storage of `imageSize` held before. -/
theorem receive_independent_of_stack {Mat : Type} (imdecode : List Byte → Mat)
    (stack1 stack2 : List Byte) (s : Socket) (image : Mat)
    (h : (recv s 4).result = -1 ∨ (recv s 4).result = 4) :
    receiveImageFromSocket imdecode stack1 s image =
      receiveImageFromSocket imdecode stack2 s image := by
  rcases h with h | h
  · simp [receiveImageFromSocket, h]
  · have hlen : (recv s 4).bytes.length = 4 := by
      rw [recv_bytes_length s 4 (by omega), h]; rfl
    unfold receiveImageFromSocket
    simp only [int32OfBytes_overlay _ stack1 hlen, int32OfBytes_overlay _ stack2 hlen]

/-- For a connection whose first `recv` fails with `-1` or stores the whole
length field, everything an iteration of the accept loop does on the
connection, and so the response it sends, is the same whatever the shared
buffers and the storage of `imageSize` held when the iteration began. -/
theorem response_independent_of_earlier_state {Mat Tensor Output Batch : Type}
    (c : Collaborators Mat Tensor Output Batch) (bufs1 bufs2 : Buffers Tensor Output)
    (stack1 stack2 : List Byte) (s : Socket)
    (h : (recv s 4).result = -1 ∨ (recv s 4).result = 4) :
    (serveClient c bufs1 ⟨s, stack1⟩).sock = (serveClient c bufs2 ⟨s, stack2⟩).sock ∧
    (serveClient c bufs1 ⟨s, stack1⟩).trace = (serveClient c bufs2 ⟨s, stack2⟩).trace := by
  have hr := receive_independent_of_stack c.imdecode stack1 stack2 s c.emptyMat h
  simp only [serveClient, hr, and_self]

/-- The call of the loop in `receiveImageFromSocket` is never stopped by the
iteration bound of the model. -/
theorem receive_loop_not_exhausted (imageSize : Int) (s : Socket) :
    (recvLoop imageSize imageSize.toNat s (List.replicate imageSize.toNat 0) 0).exit ≠
      LoopExit.exhausted :=
  recvLoop_not_exhausted imageSize imageSize.toNat s _ 0 (by omega)

end Yolov7
